import Mathlib

/-!
# Verification of the `obsidian-calendar-events` ICS pipeline

Shallow embedding of `src/graph.ts` (ICS parsing, recurrence expansion,
window filtering) and `src/utils/tzidMap.ts` of the
`ArctykDev/obsidian-calendar-events` repository, together with proofs
about the claims of its specification.

Conventions of the embedding:
* JS instants (`Date.getTime()` values) are `Int` milliseconds since the
  Unix epoch.
* JS strings are Lean `String`s; string scans are written over `s.data`.
* Built-in JS date functions (`Date.UTC`, `toISOString`, `new Date(s)`)
  are modelled by executable Lean functions implementing their
  ECMAScript semantics (proleptic Gregorian calendar, month/day overflow
  normalization, expanded years, the 1900 rule of `MakeFullYear`).
* External effects are oracle parameters: `fetchUrl` for
  `requestUrl`, `between` for `rrulestr(...).between(...)`, `zones` for
  `Intl.DateTimeFormat` time-zone data (`none` = the constructor throws
  for that zone id), and a constant offset `tzMin` in minutes for the
  process-local time zone (`Date.prototype.getTimezoneOffset`).
-/

set_option maxRecDepth 8000

namespace OCE

/-! ## The proleptic Gregorian calendar (ECMAScript `MakeDay` et al.)

`daysFromCivil`/`civilFromDays` convert between a calendar date and the
count of days since 1970-01-01, by era decomposition (the standard
algorithms used to implement the ECMAScript date functions).  All
divisions are Euclidean (`Int./` = `Int.ediv`), which on the
nonnegative intermediate quantities agrees with the reference
algorithms' truncating division and elsewhere is floor division. -/

def daysFromCivil (y m d : Int) : Int :=
  let y' := if m ≤ 2 then y - 1 else y
  let era := y' / 400
  let yoe := y' - era * 400
  let doy := (153 * (if m > 2 then m - 3 else m + 9) + 2) / 5 + d - 1
  let doe := yoe * 365 + yoe / 4 - yoe / 100 + doy
  era * 146097 + doe - 719468

def civilFromDays (z : Int) : Int × Int × Int :=
  let z' := z + 719468
  let era := z' / 146097
  let doe := z' - era * 146097
  let yoe := (doe - doe / 1460 + doe / 36524 - doe / 146096) / 365
  let y := yoe + era * 400
  let doy := doe - (365 * yoe + yoe / 4 - yoe / 100)
  let mp := (5 * doy + 2) / 153
  let d := doy - (153 * mp + 2) / 5 + 1
  let m := if mp < 10 then mp + 3 else mp - 9
  (if m ≤ 2 then y + 1 else y, m, d)

/-- Leap-year predicate of the proleptic Gregorian calendar. -/
def isLeap (y : Int) : Bool :=
  (y % 4 == 0 && y % 100 != 0) || y % 400 == 0

/-- Number of days of month `m` (1-12) of year `y`. -/
def daysInMonth (y m : Int) : Int :=
  if m = 2 then (if isLeap y then 29 else 28)
  else if m = 4 ∨ m = 6 ∨ m = 9 ∨ m = 11 then 30
  else 31

/-- ECMAScript `Date.UTC(y, m, d, h, mi, s)` with a 0-based month `m`:
normalizes month overflow into the year (`MakeDay`) and applies the
`MakeFullYear` 1900 rule for two-digit years. -/
def jsDateUTC (y m d h mi s : Int) : Int :=
  let yFull := if 0 ≤ y ∧ y ≤ 99 then 1900 + y else y
  let ym := yFull + m / 12
  let mn := m % 12 + 1
  (daysFromCivil ym mn 1 + (d - 1)) * 86400000 +
    h * 3600000 + mi * 60000 + s * 1000

/-! ## `Date.prototype.toISOString` -/

/-- The character of a decimal digit `n` (`0 ≤ n ≤ 9`). -/
def dCh (n : Int) : Char := Char.ofNat (48 + n.toNat)

def pad2L (n : Int) : List Char := [dCh (n / 10), dCh (n % 10)]

def pad3L (n : Int) : List Char := [dCh (n / 100), dCh (n / 10 % 10), dCh (n % 10)]

def pad4L (n : Int) : List Char :=
  [dCh (n / 1000), dCh (n / 100 % 10), dCh (n / 10 % 10), dCh (n % 10)]

def pad6L (n : Int) : List Char :=
  [dCh (n / 100000), dCh (n / 10000 % 10), dCh (n / 1000 % 10),
   dCh (n / 100 % 10), dCh (n / 10 % 10), dCh (n % 10)]

/-- `Date.prototype.toISOString`: years 0-9999 print as 4 digits,
years outside that range in the expanded `±YYYYYY` form. -/
def toISOString (t : Int) : String :=
  let days := t / 86400000
  let msd := t % 86400000
  let c := civilFromDays days
  let yearPart : List Char :=
    if 0 ≤ c.1 ∧ c.1 ≤ 9999 then pad4L c.1
    else if c.1 < 0 then '-' :: pad6L (-c.1) else '+' :: pad6L c.1
  String.mk (yearPart ++ '-' :: pad2L c.2.1 ++ '-' :: pad2L c.2.2 ++
    'T' :: pad2L (msd / 3600000) ++ ':' :: pad2L (msd / 60000 % 60) ++
    ':' :: pad2L (msd / 1000 % 60) ++ '.' :: pad3L (msd % 1000) ++ ['Z'])

/-! ## `new Date(string)` (the ECMAScript date-time string format)

`parseJSDate` models `new Date(s).getTime()` on the string shapes this
program feeds to it: the ISO extended (dashed) format, with optional
expanded year sign, optional time, optional `.sss` and optional
trailing `Z`.  The host V8 engine accepts only this dashed ES
date-time string format for such inputs; in particular the compact
ICS basic format `YYYYMMDDTHHMMSS[Z]` is an Invalid Date there (the
spec parser requires the dashes, and the legacy parser stops at a
letter after a number), so it maps to `none` here.  A date-only string
is read as UTC midnight; a date-time without `Z` is read as
process-local time (offset `tzMin` minutes, `getTimezoneOffset`
convention: UTC = local wall + offset).  Out-of-range components give
`none` (JS: an invalid date, `NaN`). -/

def digVal (c : Char) : Int := (c.toNat : Int) - 48

def readDigits : Nat → List Char → Option (Int × List Char)
  | 0, rest => some (0, rest)
  | _ + 1, [] => none
  | n + 1, c :: rest =>
    if c.isDigit then
      match readDigits n rest with
      | some (v, r) => some (digVal c * (10 ^ n : Nat) + v, r)
      | none => none
    else none

/-- Reads `HH:MM:SS[.sss]` (extended) and validates ranges. -/
def readTimeExt (l : List Char) : Option (Int × List Char) :=
  match readDigits 2 l with
  | some (h, ':' :: l1) =>
    match readDigits 2 l1 with
    | some (mi, ':' :: l2) =>
      match readDigits 2 l2 with
      | some (s, l3) =>
        if h ≤ 23 ∧ mi ≤ 59 ∧ s ≤ 59 then
          match l3 with
          | '.' :: l4 =>
            match readDigits 3 l4 with
            | some (ms, l5) =>
              some (h * 3600000 + mi * 60000 + s * 1000 + ms, l5)
            | none => none
          | _ => some (h * 3600000 + mi * 60000 + s * 1000, l3)
        else none
      | _ => none
    | _ => none
  | _ => none

/-- Millisecond value of a validated civil date (no overflow allowed). -/
def validDateMs (y mo dd : Int) : Option Int :=
  if 1 ≤ mo ∧ mo ≤ 12 ∧ 1 ≤ dd ∧ dd ≤ daysInMonth y mo then
    some (daysFromCivil y mo dd * 86400000)
  else none

/-- After the date part: either nothing (UTC midnight), or `T` + time
with optional `Z` (no `Z`: process-local interpretation). -/
def finishParse (tzMin : Int) (dateMs : Int) (rest : List Char) : Option Int :=
  match rest with
  | [] => some dateMs
  | 'T' :: l =>
    match readTimeExt l with
    | some (timeMs, ['Z']) => some (dateMs + timeMs)
    | some (timeMs, []) => some (dateMs + timeMs + tzMin * 60000)
    | _ => none
  | _ => none

def parseJSDateL (tzMin : Int) (l : List Char) : Option Int :=
  match l with
  | '+' :: l0 =>
    match readDigits 6 l0 with
    | some (y, '-' :: l1) =>
      match readDigits 2 l1 with
      | some (mo, '-' :: l2) =>
        match readDigits 2 l2 with
        | some (dd, l3) =>
          match validDateMs y mo dd with
          | some dms => finishParse tzMin dms l3
          | none => none
        | _ => none
      | _ => none
    | _ => none
  | '-' :: l0 =>
    match readDigits 6 l0 with
    | some (y, '-' :: l1) =>
      match readDigits 2 l1 with
      | some (mo, '-' :: l2) =>
        match readDigits 2 l2 with
        | some (dd, l3) =>
          match validDateMs (-y) mo dd with
          | some dms => finishParse tzMin dms l3
          | none => none
        | _ => none
      | _ => none
    | _ => none
  | _ =>
    match readDigits 4 l with
    | some (y, '-' :: l1) =>
      match readDigits 2 l1 with
      | some (mo, '-' :: l2) =>
        match readDigits 2 l2 with
        | some (dd, l3) =>
          match validDateMs y mo dd with
          | some dms => finishParse tzMin dms l3
          | none => none
        | _ => none
      | _ => none
    | _ => none

def parseJSDate (tzMin : Int) (s : String) : Option Int :=
  parseJSDateL tzMin s.data

/-- Model of JS `s.endsWith("Z")` (the last character is `Z`). -/
def endsWithZ (s : String) : Bool :=
  match s.data.reverse with
  | 'Z' :: _ => true
  | _ => false

/-- Model of the regex test `/^\d{4}-\d{2}-\d{2}T00:00:00\.000Z$/.test(s)`
used by the window filter to detect midnight-anchored (all-day) starts. -/
def isAllDayISO (s : String) : Bool :=
  match s.data with
  | [y1, y2, y3, y4, '-', m1, m2, '-', d1, d2,
     'T', '0', '0', ':', '0', '0', ':', '0', '0', '.', '0', '0', '0', 'Z'] =>
    [y1, y2, y3, y4, m1, m2, d1, d2].all Char.isDigit
  | _ => false

/-- Whether `pat` occurs as a contiguous run in `l`. -/
def hasInfix (pat : List Char) : List Char → Bool
  | [] => pat.isEmpty
  | c :: r => pat.isPrefixOf (c :: r) || hasInfix pat r

/-- Model of JS `s.includes(pat)` for the shapes used here. -/
def jsIncludes (s pat : String) : Bool := hasInfix pat.data s.data

/-! ## Code-point order on strings

`a.start.localeCompare(b.start)` is modelled as code-point
lexicographic comparison; on the ASCII ISO strings this program sorts
the host collation and code-point order agree (both place `+` before
any digit and compare equal-length digit runs positionally). -/

def lexLt : List Char → List Char → Bool
  | _, [] => false
  | [], _ :: _ => true
  | a :: as, b :: bs =>
    if a.toNat < b.toNat then true
    else if b.toNat < a.toNat then false
    else lexLt as bs

theorem charEqOfToNat {a b : Char} (h : a.toNat = b.toNat) : a = b :=
  Char.ext (UInt32.ext h)

theorem lexLt_irrefl (l : List Char) : lexLt l l = false := by
  induction l with
  | nil => rfl
  | cons a as ih => simp [lexLt, ih]

theorem lexLt_trichotomy (a b : List Char) :
    lexLt a b = true ∨ a = b ∨ lexLt b a = true := by
  induction a generalizing b with
  | nil => cases b <;> simp [lexLt]
  | cons x xs ih =>
    cases b with
    | nil => simp [lexLt]
    | cons y ys =>
      by_cases hxy : x.toNat < y.toNat
      · left; simp [lexLt, hxy]
      · by_cases hyx : y.toNat < x.toNat
        · right; right; simp [lexLt, hyx]
        · have hx : x = y := charEqOfToNat (by omega)
          subst hx
          rcases ih ys with h | h | h
          · left; simp [lexLt, h]
          · right; left; rw [h]
          · right; right; simp [lexLt, h]

theorem lexLt_trans {a b c : List Char} (h1 : lexLt a b = true)
    (h2 : lexLt b c = true) : lexLt a c = true := by
  induction a generalizing b c with
  | nil =>
    cases c with
    | nil => cases b <;> simp [lexLt] at h1 h2
    | cons z zs => simp [lexLt]
  | cons x xs ih =>
    cases b with
    | nil => simp [lexLt] at h1
    | cons y ys =>
      cases c with
      | nil => simp [lexLt] at h2
      | cons z zs =>
        simp only [lexLt] at h1 h2 ⊢
        by_cases hxy : x.toNat < y.toNat <;>
          by_cases hyz : y.toNat < z.toNat <;>
          by_cases hyx : y.toNat < x.toNat <;>
          by_cases hzy : z.toNat < y.toNat <;>
          simp_all <;>
          first
          | omega
          | (have hx : x = y := charEqOfToNat (by omega); subst hx; simp_all; omega)
          | (have hy : y = z := charEqOfToNat (by omega); subst hy; simp_all; omega)
          | (have hx : x = y := charEqOfToNat (by omega)
             have hy : y = z := charEqOfToNat (by omega)
             subst hx; subst hy; simp_all
             exact ih h1 h2)

theorem lexLt_asymm {a b : List Char} (h : lexLt a b = true) :
    lexLt b a = false := by
  by_contra hc
  have hba : lexLt b a = true := by
    cases hx : lexLt b a <;> simp_all
  have := lexLt_trans h hba
  rw [lexLt_irrefl] at this
  exact Bool.false_ne_true this

end OCE

namespace OCE

/-! ## JS string operations

Kernel-reducible (structurally recursive) models of the JS string
operations the source uses: `split`, `trim`, `startsWith`,
`substring(n)`, `join(":")`. -/

def splitAux (sep : List Char) : Nat → List Char → List Char → List (List Char)
  | 0, acc, rest => [acc.reverse ++ rest]
  | fuel + 1, acc, s =>
    match s with
    | [] => [acc.reverse]
    | c :: rest =>
      if sep.isPrefixOf (c :: rest) then
        acc.reverse :: splitAux sep fuel [] ((c :: rest).drop sep.length)
      else splitAux sep fuel (c :: acc) rest

/-- JS `s.split(sep)` for a nonempty literal separator. -/
def jsSplit (s sep : String) : List String :=
  (splitAux sep.data (s.data.length + 1) [] s.data).map String.mk

def isJsWs (c : Char) : Bool := c = ' ' ∨ c = '\t' ∨ c = '\n' ∨ c = '\r'

/-- JS `s.trim()`. -/
def jsTrim (s : String) : String :=
  String.mk (((s.data.dropWhile isJsWs).reverse.dropWhile isJsWs).reverse)

/-- JS `s.startsWith(p)`. -/
def jsStartsWith (s p : String) : Bool := p.data.isPrefixOf s.data

/-- JS `s.substring(n)`. -/
def jsDrop (s : String) (n : Nat) : String := String.mk (s.data.drop n)

/-- JS `parts.join(":")`. -/
def joinColon : List String → String
  | [] => ""
  | [x] => x
  | x :: xs => x ++ ":" ++ joinColon xs

/-! ## `src/utils/tzidMap.ts` — `normalizeTZID` -/

/-- The Windows-name → IANA lookup table of `normalizeTZID`. -/
def tzidPairs : List (String × String) :=
  [("Eastern Standard Time", "America/New_York"),
   ("Central Standard Time", "America/Chicago"),
   ("Mountain Standard Time", "America/Denver"),
   ("Pacific Standard Time", "America/Los_Angeles"),
   ("Atlantic Standard Time", "America/Halifax"),
   ("Newfoundland Standard Time", "America/St_Johns"),
   ("Greenwich Standard Time", "Etc/Greenwich"),
   ("UTC", "UTC"),
   ("Coordinated Universal Time", "UTC"),
   ("Eastern Time", "America/New_York"),
   ("Eastern Time (US & Canada)", "America/New_York")]

def dropWs : List Char → List Char
  | [] => []
  | c :: r => if isJsWs c then dropWs r else c :: r

/-- Suffix after the first `)` if any. -/
def afterCloseParen : List Char → Option (List Char)
  | [] => none
  | ')' :: r => some r
  | _ :: r => afterCloseParen r

/-- Tries to match `/\(UTC[^\)]*\)\s*/i` at the head of the list;
returns the remainder after the match. -/
def tryUTCParen (l : List Char) : Option (List Char) :=
  match l with
  | '(' :: c1 :: c2 :: c3 :: r =>
    if c1.toLower = 'u' ∧ c2.toLower = 't' ∧ c3.toLower = 'c' then
      (afterCloseParen r).map dropWs
    else none
  | _ => none

/-- `t.replace(/\(UTC[^\)]*\)\s*/i, "")`: removes the first match only. -/
def replaceUTCParen : List Char → List Char
  | [] => []
  | c :: r =>
    match tryUTCParen (c :: r) with
    | some rest => rest
    | none => c :: replaceUTCParen r

/-- `normalizeTZID` of `src/utils/tzidMap.ts` (`none` = JS `undefined`). -/
def normalizeTZID (tz : Option String) : Option String :=
  match tz with
  | none => none
  | some t =>
    if t = "" then some t
    else
      let cleaned := jsTrim (String.mk (replaceUTCParen t.data))
      some (((tzidPairs.find? (fun p => p.1 == cleaned)).map Prod.snd).getD t)

/-! ## `src/graph.ts` — property-line parsing (`readProp`) -/

/-- Tries `/TZID=([^;]+)/i` at the head; returns the (nonempty) capture. -/
def tryTZID (l : List Char) : Option String :=
  match l with
  | c1 :: c2 :: c3 :: c4 :: '=' :: r =>
    if c1.toLower = 't' ∧ c2.toLower = 'z' ∧ c3.toLower = 'i' ∧ c4.toLower = 'd' then
      let cap := r.takeWhile (fun c => c ≠ ';')
      if cap.isEmpty then none else some (String.mk cap)
    else none
  | _ => none

/-- First match of `/TZID=([^;]+)/i` anywhere in the list. -/
def findTZID : List Char → Option String
  | [] => none
  | c :: r =>
    match tryTZID (c :: r) with
    | some cap => some cap
    | none => findTZID r

/-- `readProp` of `src/graph.ts`: value = the piece after the first
colon (and only up to a second colon, per the `[left, right]`
destructuring of `line.split(":")`), `tz` = the normalized TZID
parameter of the part before the colon. -/
def readProp (line : String) : String × Option String :=
  let parts := jsSplit line ":"
  let value := jsTrim (parts.getD 1 "")
  let left := parts.headD ""
  let tz := normalizeTZID ((findTZID left.data).map jsTrim)
  (value, tz)

/-! ## `zonedWallTimeToUTCISO` and `toISO` -/

/-- Match of `/^(\d{4})(\d{2})(\d{2})(?:T(\d{2})(\d{2})(\d{2})?)?$/`:
returns `(y, mo, d, hh, mm, ss)` with the optional groups defaulted to 0
(the code defaults them to `"00"`). -/
def parseWallPattern (s : String) : Option (Int × Int × Int × Int × Int × Int) :=
  match readDigits 4 s.data with
  | some (y, l1) =>
    match readDigits 2 l1 with
    | some (mo, l2) =>
      match readDigits 2 l2 with
      | some (d, []) => some (y, mo, d, 0, 0, 0)
      | some (d, 'T' :: l3) =>
        match readDigits 2 l3 with
        | some (hh, l4) =>
          match readDigits 2 l4 with
          | some (mm, []) => some (y, mo, d, hh, mm, 0)
          | some (mm, l5) =>
            match readDigits 2 l5 with
            | some (ss, []) => some (y, mo, d, hh, mm, ss)
            | _ => none
          | _ => none
        | _ => none
      | _ => none
    | _ => none
  | _ => none

/-- A time zone as observed through `Intl.DateTimeFormat.formatToParts`:
maps a probe instant to the `Date.UTC` reassembly of the zone's wall
clock at that instant.  The oracle `zones` yields `none` when the
`Intl.DateTimeFormat` constructor would throw for that zone id. -/
abbrev ZoneOracle := String → Option (Int → Int)

/-- `zonedWallTimeToUTCISO` of `src/graph.ts`. -/
def zonedWallTimeToUTCISO (zones : ZoneOracle) (tzMin : Int)
    (dateStr : String) (tz : Option String) : Option String :=
  if dateStr = "" then none
  else
    match parseWallPattern dateStr with
    | none => none
    | some (year, month, day, hour, minute, second) =>
      if ¬ jsIncludes dateStr "T" then
        some (toISOString (jsDateUTC year (month - 1) day 0 0 0))
      else
        match tz with
        | none =>
          -- `new Date(y, mo-1, d, h, mi, s)` (local) then subtract the
          -- local offset: with the constant-offset model,
          -- `local.getTime()` is the wall components read as UTC plus
          -- `tzMin` minutes.
          let localGetTime := jsDateUTC year (month - 1) day hour minute second +
            tzMin * 60000
          some (toISOString (localGetTime - tzMin * 60000))
        | some z =>
          match zones z with
          | none =>
            -- the Intl constructor threw: fall back to wall time as UTC
            some (toISOString (jsDateUTC year (month - 1) day hour minute second))
          | some rule =>
            let probe := jsDateUTC year (month - 1) day hour minute second
            let tzWallUTC := rule probe
            let naiveUTC := probe
            let offsetMs := tzWallUTC - naiveUTC
            let intendedUTC := naiveUTC - offsetMs
            some (toISOString intendedUTC)

/-- `toISO` of `src/graph.ts`. -/
def toISO (zones : ZoneOracle) (tzMin : Int) (val : String)
    (tz : Option String) : Option String :=
  if val = "" then none
  else if val.data.length = 8 ∧ val.data.all Char.isDigit then
    -- new Date(`${y}-${m}-${d}T00:00:00Z`), Invalid Date → throw → null
    match parseJSDate tzMin
        (String.mk (val.data.take 4) ++ "-" ++ String.mk ((val.data.drop 4).take 2) ++
          "-" ++ String.mk (val.data.drop 6) ++ "T00:00:00Z") with
    | some t => some (toISOString t)
    | none => none
  else if endsWithZ val then
    match parseJSDate tzMin val with
    | some t => some (toISOString t)
    | none => none
  else
    zonedWallTimeToUTCISO zones tzMin val tz

end OCE


namespace OCE

/-! ## `src/graph.ts` — `parseICS`

Events, per-block field extraction, the block classification
(master / cancelled instance / override instance / standalone), and the
recurrence expansion, mirroring the statement order of the source.  The
debug-only `raw` field of the source events is not modelled.  The
`rrule` library is the oracle `between dtStartLine ruleText lo hi`,
returning the occurrence instants of
`rrulestr("DTSTART:" + dtStartLine + "\nRRULE:" + ruleText)`
inside `[lo, hi]` (both ends inclusive, as the code passes `true`). -/

structure CalendarEvent where
  id : String
  subject : String
  start : String
  endS : String
  location : String
  isRecurring : Bool
  calendarId : Option String := none
  calendarName : Option String := none
  color : Option String := none
  deriving Repr, DecidableEq

structure Master where
  uid : String
  summary : String
  location : String
  startISO : String
  endISO : Option String
  rrule : String
  startRaw : String
  startTz : String
  deriving Repr, DecidableEq

/-- The per-block mutable locals of the parsing loop. -/
structure BlockFields where
  uid : String := ""
  summary : String := "(no title)"
  start : String := ""
  startTz : String := ""
  endV : String := ""
  endTz : String := ""
  recurrenceId : String := ""
  recurrenceTz : String := ""
  rrule : String := ""
  location : String := ""
  canceled : Bool := false
  deriving Repr

/-- Everything after the first colon (`line.split(":").slice(1).join(":")`),
trimmed. -/
def afterColon (line : String) : String :=
  jsTrim (joinColon ((jsSplit line ":").drop 1))

/-- One iteration of the field-extraction `if`/`else if` chain. -/
def applyLine (f : BlockFields) (line : String) : BlockFields :=
  if jsStartsWith line "UID:" then { f with uid := jsTrim (jsDrop line 4) }
  else if jsStartsWith line "SUMMARY" then { f with summary := afterColon line }
  else if jsStartsWith line "LOCATION" then { f with location := afterColon line }
  else if jsStartsWith line "STATUS:CANCELLED" then { f with canceled := true }
  else if jsStartsWith line "DTSTART" then
    let p := readProp line
    { f with start := p.1, startTz := p.2.getD "" }
  else if jsStartsWith line "DTEND" then
    let p := readProp line
    { f with endV := p.1, endTz := p.2.getD "" }
  else if jsStartsWith line "RRULE:" then { f with rrule := jsTrim (jsDrop line 6) }
  else if jsStartsWith line "RECURRENCE-ID" then
    let p := readProp line
    { f with recurrenceId := p.1, recurrenceTz := p.2.getD "" }
  else f

/-- `icsText.replace(/\r?\n[ \t]/g, "")` — RFC 5545 line unfolding. -/
def unfoldICS : List Char → List Char
  | [] => []
  | '\r' :: '\n' :: ' ' :: r => unfoldICS r
  | '\r' :: '\n' :: '\t' :: r => unfoldICS r
  | '\n' :: ' ' :: r => unfoldICS r
  | '\n' :: '\t' :: r => unfoldICS r
  | c :: r => c :: unfoldICS r

/-- `endBlock.split(/\r?\n/)`. -/
def splitLinesJS (s : String) : List String :=
  (jsSplit s "\n").map fun l =>
    if l.data.getLast? == some '\r' then String.mk l.data.dropLast else l

/-- JS `Record` assignment: replace the value of an existing key in
place, or append a new key (string-keyed objects preserve insertion
order). -/
def upsert {α : Type} (k : String) (v : α) : List (String × α) → List (String × α)
  | [] => [(k, v)]
  | (k', v') :: r => if k' = k then (k, v) :: r else (k', v') :: upsert k v r

/-- The four accumulators of one `parseICS` invocation. -/
structure ParseState where
  events : List CalendarEvent := []
  masters : List (String × Master) := []
  cancelled : List (String × List String) := []
  overrides : List (String × List (String × CalendarEvent)) := []

/-- The override event built from a block carrying a (non-cancelled)
`RECURRENCE-ID`: its id uses the `RECURRENCE-ID` instant `ridISO`, its
start uses the block's own `DTSTART` instant. -/
def mkOverride (f : BlockFields) (ridISO startISO : String)
    (endISOopt : Option String) : CalendarEvent :=
  { id := f.uid ++ ridISO, subject := f.summary, start := startISO,
    endS := endISOopt.getD startISO, location := f.location,
    isRecurring := true }

/-- The standalone event built from a simple non-recurring block. -/
def mkStandalone (f : BlockFields) (startISO : String)
    (endISOopt : Option String) : CalendarEvent :=
  { id := f.uid ++ startISO, subject := f.summary, start := startISO,
    endS := endISOopt.getD startISO, isRecurring := false,
    location := f.location }

/-- Processing of one `BEGIN:VEVENT` block (field extraction and
classification). -/
def processBlock (zones : ZoneOracle) (tzMin : Int) (st : ParseState)
    (block : String) : ParseState :=
  let endBlock := ((jsSplit block "END:VEVENT").headD "")
  let lines := ((splitLinesJS endBlock).map jsTrim).filter (· ≠ "")
  let f := lines.foldl applyLine {}
  let startISOopt := toISO zones tzMin f.start
    (if f.startTz = "" then none else some f.startTz)
  let endISOopt := toISO zones tzMin f.endV
    (if f.endTz = "" then none else some f.endTz)
  match startISOopt with
  | none => st
  | some startISO =>
    if f.uid = "" then st
    else if f.rrule ≠ "" ∧ f.recurrenceId = "" then
      let m : Master :=
        { uid := f.uid, summary := f.summary, location := f.location,
          startISO := startISO, endISO := endISOopt, rrule := f.rrule,
          startRaw := f.start, startTz := f.startTz }
      { st with masters := upsert f.uid m st.masters }
    else if f.recurrenceId ≠ "" then
      match toISO zones tzMin f.recurrenceId
          (if f.recurrenceTz = "" then none else some f.recurrenceTz) with
      | none => st
      | some ridISO =>
        if f.canceled then
          let newList := ((List.lookup f.uid st.cancelled).getD []) ++ [ridISO]
          { st with cancelled := upsert f.uid newList st.cancelled }
        else
          let ov := mkOverride f ridISO startISO endISOopt
          let newMap := upsert ridISO ov ((List.lookup f.uid st.overrides).getD [])
          { st with overrides := upsert f.uid newMap st.overrides }
    else if ¬ f.canceled then
      { st with events := st.events ++ [mkStandalone f startISO endISOopt] }
    else st

/-- `m.startISO.replace(/[-:]/g, "").split(".")[0] + "Z"` — the
`DTSTART:` line handed to `rrulestr`. -/
def mungeDtStart (s : String) : String :=
  String.mk ((s.data.filter (fun c => c ≠ '-' ∧ c ≠ ':')).takeWhile (· ≠ '.')) ++ "Z"

/-- The oracle modelling `rrulestr(dtstart + rule).between(lo, hi, true)`. -/
abbrev RRuleOracle := String → String → Int → Int → List Int

/-- The body of the per-occurrence loop of the recurrence expansion. -/
def expandOccurrence (cancelled : List String)
    (ovMap : List (String × CalendarEvent)) (m : Master) (durationMs : Int)
    (t : Int) : Option CalendarEvent :=
  let startDateISO := toISOString t
  let endDateISO := toISOString (t + durationMs)
  if cancelled.contains startDateISO then none
  else
    match List.lookup startDateISO ovMap with
    | some ov => some ov
    | none => some
        { id := m.uid ++ startDateISO, subject := m.summary,
          start := startDateISO, endS := endDateISO,
          location := m.location, isRecurring := true }

/-- Expansion of one recurrence master over the bounding window. -/
def expandMaster (tzMin : Int) (between : RRuleOracle) (startB endB : Int)
    (cancelled : List String) (ovMap : List (String × CalendarEvent))
    (m : Master) : List CalendarEvent :=
  let dtStart := mungeDtStart m.startISO
  let occs := between dtStart m.rrule startB endB
  let durationMs := (parseJSDate tzMin (m.endISO.getD m.startISO)).getD 0 -
    (parseJSDate tzMin m.startISO).getD 0
  occs.filterMap (expandOccurrence cancelled ovMap m durationMs)

/-- The comparator relation of `.sort((a, b) => a.start.localeCompare(b.start))`. -/
def startLe (a b : CalendarEvent) : Prop := lexLt b.start.data a.start.data = false

instance : DecidableRel startLe := fun a b =>
  inferInstanceAs (Decidable (lexLt b.start.data a.start.data = false))

instance : IsTotal CalendarEvent startLe where
  total a b := by
    unfold startLe
    rcases lexLt_trichotomy a.start.data b.start.data with h | h | h
    · left; exact lexLt_asymm h
    · left; rw [h, lexLt_irrefl]
    · right; exact lexLt_asymm h

instance : IsTrans CalendarEvent startLe where
  trans a b c hab hbc := by
    unfold startLe at *
    by_contra hc
    have hca : lexLt c.start.data a.start.data = true := by
      cases h : lexLt c.start.data a.start.data <;> simp_all
    rcases lexLt_trichotomy b.start.data c.start.data with h | h | h
    · exact absurd (lexLt_trans h hca) (by simp [hab])
    · rw [h] at hab
      exact absurd hca (by simp [hab])
    · exact absurd h (by simp [hbc])

/-- `parseICS` of `src/graph.ts`. -/
def parseICS (zones : ZoneOracle) (tzMin : Int) (between : RRuleOracle)
    (icsText : String) (startBoundary endBoundary : Int) : List CalendarEvent :=
  let unfolded := String.mk (unfoldICS icsText.data)
  let blocks := (jsSplit unfolded "BEGIN:VEVENT").drop 1
  let st := blocks.foldl (processBlock zones tzMin) {}
  let events := st.events ++ st.masters.flatMap fun p =>
    expandMaster tzMin between startBoundary endBoundary
      ((List.lookup p.1 st.cancelled).getD [])
      ((List.lookup p.1 st.overrides).getD []) p.2
  List.insertionSort startLe events

end OCE

namespace OCE

/-! ## `src/graph.ts` — `CalendarClient.fetchEvents`

`requestUrl` is the oracle `fetchUrl : String → Except String String`
(`.error msg` = the promise rejects: network failure or, with the
default `throw` behaviour of Obsidian's `requestUrl`, a non-2xx status;
`.ok body` = `response.text`).  `Promise.all` over the per-source async
closures rejects as soon as any fetch rejects; every fetch is still
dispatched.  `now` is the instant of `new Date()`. -/

structure CalendarSource where
  id : String
  name : String
  url : String
  color : String := ""
  enabled : Bool
  deriving Repr, DecidableEq

structure ObsidianCalendarSettings where
  calendars : List CalendarSource
  daysBefore : Int
  daysAhead : Int
  deriving Repr

inductive FetchError where
  | noCalendars : FetchError
  | feedFailure (msg : String) : FetchError
  deriving Repr, DecidableEq

instance {ε α : Type} [DecidableEq ε] [DecidableEq α] :
    DecidableEq (Except ε α) := fun a b =>
  match a, b with
  | .error e, .error e' =>
    if h : e = e' then isTrue (by rw [h]) else isFalse (by intro hc; cases hc; exact h rfl)
  | .ok v, .ok v' =>
    if h : v = v' then isTrue (by rw [h]) else isFalse (by intro hc; cases hc; exact h rfl)
  | .error _, .ok _ => isFalse (by intro hc; cases hc)
  | .ok _, .error _ => isFalse (by intro hc; cases hc)

/-- `(this.settings as any).calendars?.filter(c => c.enabled && c.url && c.url.trim())`. -/
def enabledSources (settings : ObsidianCalendarSettings) : List CalendarSource :=
  settings.calendars.filter fun c => c.enabled && c.url ≠ "" && jsTrim c.url ≠ ""

/-- `d.setHours(0, 0, 0, 0)` under the constant-offset local zone:
the instant of the preceding local midnight. -/
def localMidnight (tzMin t : Int) : Int :=
  (t - tzMin * 60000) - (t - tzMin * 60000) % 86400000 + tzMin * 60000

/-- Comparison lifted to possibly-invalid dates: any comparison with
`NaN` is false in JS. -/
def oLt : Option Int → Option Int → Bool
  | some a, some b => decide (a < b)
  | _, _ => false

/-- The normalized start instant the filter compares (`start` after the
floating-time shift of non-`Z` strings); `none` models an invalid
date (`NaN`). -/
def effStart (tzMin : Int) (ev : CalendarEvent) : Option Int :=
  let start0 := parseJSDate tzMin ev.start
  if endsWithZ ev.start then start0 else start0.map (· - tzMin * 60000)

/-- The normalized end instant the filter compares: `ev.end || ev.start`
parsed, shifted like the start, and with one day subtracted for
midnight-anchored (all-day) starts with a later end. -/
def effEnd (tzMin : Int) (ev : CalendarEvent) : Option Int :=
  let end0 := parseJSDate tzMin (if ev.endS = "" then ev.start else ev.endS)
  let end1 := if endsWithZ ev.start then end0 else end0.map (· - tzMin * 60000)
  if isAllDayISO ev.start ∧ oLt (effStart tzMin ev) end1 = true then
    end1.map (· - 86400000)
  else end1

/-- The three-way overlap disjunction of the filter. -/
def includeTest (lo hi s e : Int) : Bool :=
  (decide (lo ≤ s) && decide (s ≤ hi)) ||
    (decide (lo ≤ e) && decide (e ≤ hi)) ||
    (decide (s ≤ lo) && decide (hi ≤ e))

/-- The per-event inclusion test of the window filter (the body of
`allEvents.filter`): comparisons against an invalid date (`NaN`) are
false, so a disjunct mentioning an invalid instant drops out. -/
def filterEvent (tzMin lo hi : Int) (ev : CalendarEvent) : Bool :=
  match effStart tzMin ev, effEnd tzMin ev with
  | some s, some e => includeTest lo hi s e
  | some s, none => decide (lo ≤ s) && decide (s ≤ hi)
  | none, some e => decide (lo ≤ e) && decide (e ≤ hi)
  | none, none => false

/-- `{...e, calendarId: src.id, calendarName: src.name, color: src.color || default}`. -/
def withMeta (src : CalendarSource) (e : CalendarEvent) : CalendarEvent :=
  { e with calendarId := some src.id, calendarName := some src.name,
           color := some (if src.color = "" then "#4A90E2" else src.color) }

/-- Fetch and parse one source (the async closure inside `Promise.all`). -/
def fetchOne (zones : ZoneOracle) (tzMin : Int) (between : RRuleOracle)
    (fetchUrl : String → Except String String) (startB endB : Int)
    (src : CalendarSource) : Except String (List CalendarEvent) :=
  match fetchUrl src.url with
  | .error e => .error e
  | .ok icsText =>
    if ¬ jsIncludes icsText "BEGIN:VEVENT" then .ok []
    else .ok ((parseICS zones tzMin between icsText startB endB).map (withMeta src))

/-- `Promise.all`: the results in order, or the failure of the first
rejecting source. -/
def collectAll (zones : ZoneOracle) (tzMin : Int) (between : RRuleOracle)
    (fetchUrl : String → Except String String) (startB endB : Int) :
    List CalendarSource → Except String (List (List CalendarEvent))
  | [] => .ok []
  | s :: rest =>
    match fetchOne zones tzMin between fetchUrl startB endB s with
    | .error e => .error e
    | .ok evs =>
      match collectAll zones tzMin between fetchUrl startB endB rest with
      | .error e => .error e
      | .ok tl => .ok (evs :: tl)

/-- `CalendarClient.fetchEvents`, paired with the list of URLs for
which a network request is dispatched during the call. -/
def fetchEventsT (zones : ZoneOracle) (tzMin : Int) (between : RRuleOracle)
    (fetchUrl : String → Except String String) (now : Int)
    (settings : ObsidianCalendarSettings) :
    Except FetchError (List CalendarEvent) × List String :=
  let sources := enabledSources settings
  if sources.isEmpty then (.error .noCalendars, [])
  else
    let startLocal := localMidnight tzMin now
    let startBoundary := startLocal - settings.daysBefore * 24 * 3600 * 1000
    let endB0 := startLocal + settings.daysAhead * 24 * 3600 * 1000
    let endBoundary := localMidnight tzMin endB0 + (86400000 - 1)
    let bufferMs := 12 * 3600 * 1000
    let startISOs := toISOString (startBoundary - bufferMs)
    let endISOs := toISOString (endBoundary + bufferMs)
    let startBoundaryUTC := (parseJSDate tzMin startISOs).getD 0
    let endBoundaryUTC := (parseJSDate tzMin endISOs).getD 0
    let requested := sources.map (·.url)
    match collectAll zones tzMin between fetchUrl startBoundary endBoundary sources with
    | .error e => (.error (.feedFailure e), requested)
    | .ok results =>
      let allEvents := results.flatten
      let filtered := allEvents.filter (filterEvent tzMin startBoundaryUTC endBoundaryUTC)
      (.ok (List.insertionSort startLe filtered), requested)

/-- The value of the returned promise. -/
def fetchEvents (zones : ZoneOracle) (tzMin : Int) (between : RRuleOracle)
    (fetchUrl : String → Except String String) (now : Int)
    (settings : ObsidianCalendarSettings) :
    Except FetchError (List CalendarEvent) :=
  (fetchEventsT zones tzMin between fetchUrl now settings).1

end OCE

namespace OCE

/-! ## Claims -/

/-- Every `toISOString` value ends in `Z`. -/
theorem endsWithZ_toISOString (t : Int) : endsWithZ (toISOString t) = true := by
  unfold toISOString endsWithZ
  simp only [List.reverse_append]
  rfl

/-- `toISO` only ever returns `toISOString` values. -/
theorem toISO_shape (zones : ZoneOracle) (tzMin : Int) (val : String)
    (tz : Option String) (s : String) (h : toISO zones tzMin val tz = some s) :
    ∃ t, s = toISOString t := by
  unfold toISO at h
  split at h
  · exact absurd h (by simp)
  · split at h
    · split at h
      · exact ⟨_, by injection h with h; rw [← h]⟩
      · exact absurd h (by simp)
    · split at h
      · split at h
        · exact ⟨_, by injection h with h; rw [← h]⟩
        · exact absurd h (by simp)
      · unfold zonedWallTimeToUTCISO at h
        split at h
        · exact absurd h (by simp)
        · split at h
          · exact absurd h (by simp)
          · split at h
            · exact ⟨_, by injection h with h; rw [← h]⟩
            · split at h
              · exact ⟨_, by injection h with h; rw [← h]⟩
              · split at h
                · exact ⟨_, by injection h with h; rw [← h]⟩
                · exact ⟨_, by injection h with h; rw [← h]⟩

/-- C9: with no enabled source carrying a non-empty URL, `fetchEvents`
rejects with the configuration error and dispatches no network
request. -/
theorem C9_no_enabled_sources_rejects_before_fetch
    (zones : ZoneOracle) (tzMin : Int) (between : RRuleOracle)
    (fetchUrl : String → Except String String) (now : Int)
    (settings : ObsidianCalendarSettings)
    (h : enabledSources settings = []) :
    fetchEventsT zones tzMin between fetchUrl now settings =
      (Except.error FetchError.noCalendars, []) := by
  unfold fetchEventsT
  simp [h]

/-- Witness for C9: one disabled source and one enabled source whose
URL is whitespace — the filter leaves nothing, the call rejects with
the configuration error and requests no URL. -/
theorem C9_witness :
    enabledSources
        { calendars := [{ id := "a", name := "A", url := "https://x", enabled := false },
                        { id := "b", name := "B", url := "  ", enabled := true }],
          daysBefore := 0, daysAhead := 7 } = [] ∧
    fetchEventsT (fun _ => none) 0 (fun _ _ _ _ => []) (fun _ => Except.error "net") 0
        { calendars := [{ id := "a", name := "A", url := "https://x", enabled := false },
                        { id := "b", name := "B", url := "  ", enabled := true }],
          daysBefore := 0, daysAhead := 7 } =
      (Except.error FetchError.noCalendars, []) :=
  ⟨by decide,
   C9_no_enabled_sources_rejects_before_fetch _ _ _ _ _ _ (by decide)⟩

/-- C2 (corrected): `zonedWallTimeToUTCISO` returns `null` exactly for
inputs that do not match the wall-time pattern; but for a zone id the
`Intl` constructor rejects, it does not return `null` — it falls back
to reading the wall-clock digits as UTC. -/
theorem C2_amended_null_iff_pattern_mismatch_and_utc_fallback :
    (∀ (zones : ZoneOracle) (tzMin : Int) (s : String) (tz : Option String),
      zonedWallTimeToUTCISO zones tzMin s tz = none ↔ parseWallPattern s = none) ∧
    (∀ (zones : ZoneOracle) (tzMin : Int) (s z : String) (y mo d hh mm ss : Int),
      parseWallPattern s = some (y, mo, d, hh, mm, ss) →
      jsIncludes s "T" = true → zones z = none →
      zonedWallTimeToUTCISO zones tzMin s (some z) =
        some (toISOString (jsDateUTC y (mo - 1) d hh mm ss))) := by
  constructor
  · intro zones tzMin s tz
    unfold zonedWallTimeToUTCISO
    split
    · subst s; simp [parseWallPattern, readDigits]
    · split
      · simp_all
      · split
        · simp_all
        · split
          · simp_all
          · split
            · simp_all
            · simp_all
  · intro zones tzMin s z y mo d hh mm ss hp hT hz
    unfold zonedWallTimeToUTCISO
    have hne : s ≠ "" := by
      intro h
      subst h
      simp [parseWallPattern, readDigits] at hp
    simp [hne, hp, hT, hz]

/-- Witness for C2's amended statement: a non-matching string maps to
`none`; a matching date-time with an unusable zone id maps to the
UTC-fallback value, not to `none`. -/
theorem C2_witness :
    zonedWallTimeToUTCISO (fun _ => none) 0 "not-a-date" none = none ∧
    zonedWallTimeToUTCISO (fun _ => none) 0 "20250101T120000" (some "Bad/Zone") =
      some (toISOString (jsDateUTC 2025 0 1 12 0 0)) :=
  ⟨(C2_amended_null_iff_pattern_mismatch_and_utc_fallback.1 _ _ _ _).mpr (by decide),
   C2_amended_null_iff_pattern_mismatch_and_utc_fallback.2 _ _ _ _ 2025 1 1 12 0 0
     (by decide) (by decide) rfl⟩

/-- Counterexample to C2 as stated: with an unusable zone id
(`Intl.DateTimeFormat` throws, modelled by the zone oracle returning
`none` for `"Bad/Zone"`), the converter does not return `null`; it
substitutes the UTC reading of the wall-clock digits. -/
theorem C2_counterexample :
    zonedWallTimeToUTCISO (fun _ => none) 0 "20250101T120000" (some "Bad/Zone") =
      some "2025-01-01T12:00:00.000Z" := by decide

end OCE

namespace OCE

/-- C3 (corrected): the id of a standalone event and of a synthesized
occurrence is the uid concatenated with the event's own start; the id
of an instance override is the uid concatenated with its
`RECURRENCE-ID` instant, while its start is the override's own
`DTSTART` instant. -/
theorem C3_amended_id_shape :
    (∀ (f : BlockFields) (startISO : String) (endISOopt : Option String),
      (mkStandalone f startISO endISOopt).id =
        f.uid ++ (mkStandalone f startISO endISOopt).start) ∧
    (∀ (cancelled : List String) (ovMap : List (String × CalendarEvent))
        (m : Master) (dur t : Int) (ev : CalendarEvent),
      List.lookup (toISOString t) ovMap = none →
      expandOccurrence cancelled ovMap m dur t = some ev →
      ev.id = m.uid ++ ev.start) ∧
    (∀ (f : BlockFields) (ridISO startISO : String) (endISOopt : Option String),
      (mkOverride f ridISO startISO endISOopt).id = f.uid ++ ridISO ∧
      (mkOverride f ridISO startISO endISOopt).start = startISO) := by
  refine ⟨fun f s e => rfl, ?_, fun f r s e => ⟨rfl, rfl⟩⟩
  intro cancelled ovMap m dur t ev hlook hexp
  simp only [expandOccurrence] at hexp
  split at hexp
  · exact absurd hexp (by simp)
  · rw [hlook] at hexp
    injection hexp with hexp
    rw [← hexp]

/-- The synthesized 2025-01-08T10:00Z occurrence of the C3 witness. -/
def evC3 : CalendarEvent :=
  { id := "u12025-01-08T10:00:00.000Z", subject := "s",
    start := "2025-01-08T10:00:00.000Z", endS := "2025-01-08T10:00:00.000Z",
    location := "", isRecurring := true }

/-- Witness for C3's amended statement: a synthesized occurrence with
no override registered carries `uid ++ start` as id. -/
theorem C3_witness :
    expandOccurrence [] []
        { uid := "u1", summary := "s", location := "", startISO := "",
          endISO := none, rrule := "", startRaw := "", startTz := "" } 0
        1736330400000 = some evC3 ∧
    evC3.id = "u1" ++ evC3.start :=
  ⟨by decide,
   C3_amended_id_shape.2.1 [] []
     { uid := "u1", summary := "s", location := "", startISO := "",
       endISO := none, rrule := "", startRaw := "", startTz := "" }
     0 1736330400000 evC3 rfl (by decide)⟩

/-- The feed of the C3 counterexample: a weekly master and an override
that moves the 2025-01-08 10:00 occurrence to 11:00.  The values are
floating compact wall times (no `Z`, no colons), handled by the
digit-based floating branch of `zonedWallTimeToUTCISO`; at process
offset 0 they denote the same wall clock read as UTC. -/
def feedC3 : String :=
  "BEGIN:VEVENT\nUID:u1\nSUMMARY:Weekly\nDTSTART:20250101T100000\n" ++
  "DTEND:20250101T110000\nRRULE:FREQ=WEEKLY\nEND:VEVENT\n" ++
  "BEGIN:VEVENT\nUID:u1\nSUMMARY:Moved\nDTSTART:20250108T110000\n" ++
  "DTEND:20250108T120000\nRECURRENCE-ID:20250108T100000\nEND:VEVENT\n"

/-- The recurrence oracle of the C3 counterexample.  The single query
issued by `parseICS` on `feedC3` is
`rrulestr("DTSTART:20250101T100000Z\nRRULE:FREQ=WEEKLY")
  .between(2025-01-05T00:00:00Z, 2025-01-11T23:59:59.999Z, true)`,
whose value is the lone in-window occurrence 2025-01-08T10:00:00Z. -/
def rruleC3 : RRuleOracle := fun _ _ _ _ => [1736330400000]

/-- Counterexample to C3 as stated: the parser emits the override of the
2025-01-08 10:00Z occurrence with id `u1 ++ "2025-01-08T10:00:00.000Z"`
(the `RECURRENCE-ID` instant) but start `"2025-01-08T11:00:00.000Z"`
(the override's own moved start), so its id is not its uid concatenated
with its own start — the start is not even a suffix of the id. -/
theorem C3_counterexample :
    ((parseICS (fun _ => none) 0 rruleC3 feedC3
          1736035200000 1736639999999).map
        (fun e => (e.id, e.start)) =
      [("u12025-01-08T10:00:00.000Z", "2025-01-08T11:00:00.000Z")]) ∧
    List.isPrefixOf ("2025-01-08T11:00:00.000Z" : String).data.reverse
      ("u12025-01-08T10:00:00.000Z" : String).data.reverse = false := by decide

/-- C5: a cancelled occurrence instant is skipped by the expansion, and
a series whose cancellation list holds one instant that the rule
generates exactly once yields exactly one fewer occurrence than the
same series with no cancellations. -/
theorem C5_cancelled_instances_skipped
    (cancelled : List String) (ovMap : List (String × CalendarEvent))
    (m : Master) (dur t : Int)
    (h : cancelled.contains (toISOString t) = true) :
    expandOccurrence cancelled ovMap m dur t = none ∧
    ∀ (tzMin startB endB : Int) (occs : List Int) (c : String),
      (occs.map toISOString).count c = 1 →
      (expandMaster tzMin (fun _ _ _ _ => occs) startB endB [c] ovMap m).length + 1 =
        (expandMaster tzMin (fun _ _ _ _ => occs) startB endB [] ovMap m).length := by
  constructor
  · have hm : toISOString t ∈ cancelled := by simpa using h
    simp only [expandOccurrence]
    simp [hm]
  · intro tzMin startB endB occs c hc
    have key : ∀ (os : List Int) (dur' : Int),
        (os.filterMap (expandOccurrence [c] ovMap m dur')).length +
          (os.map toISOString).count c = os.length ∧
        (os.filterMap (expandOccurrence [] ovMap m dur')).length = os.length := by
      intro os dur'
      induction os with
      | nil => simp
      | cons t' r ih =>
        constructor
        · by_cases hct : toISOString t' = c
          · have hnone : expandOccurrence [c] ovMap m dur' t' = none := by
              simp only [expandOccurrence]
              simp [hct]
            simp [List.filterMap_cons, hnone, List.count_cons, hct, ih.1]
            omega
          · have hsome : ∃ ev, expandOccurrence [c] ovMap m dur' t' = some ev := by
              have hm' : ¬ toISOString t' ∈ [c] := by simp [hct]
              have hcf : List.contains [c] (toISOString t') = false := by
                simpa using hm'
              simp only [expandOccurrence]
              rw [hcf]
              simp only [Bool.false_eq_true, if_false]
              split
              · exact ⟨_, rfl⟩
              · exact ⟨_, rfl⟩
            obtain ⟨ev, hev⟩ := hsome
            simp [List.filterMap_cons, hev, List.count_cons, hct, ih.1]
            omega
        · have hsome : ∃ ev, expandOccurrence [] ovMap m dur' t' = some ev := by
            simp only [expandOccurrence]
            simp only [List.contains_nil, Bool.false_eq_true, if_false]
            split
            · exact ⟨_, rfl⟩
            · exact ⟨_, rfl⟩
          obtain ⟨ev, hev⟩ := hsome
          simp [List.filterMap_cons, hev, ih.2]
    have hrw : ∀ cl : List String,
        expandMaster tzMin (fun _ _ _ _ => occs) startB endB cl ovMap m =
          occs.filterMap (expandOccurrence cl ovMap m
            ((parseJSDate tzMin (m.endISO.getD m.startISO)).getD 0 -
              (parseJSDate tzMin m.startISO).getD 0)) := fun cl => rfl
    rw [hrw, hrw]
    have k1 := (key occs ((parseJSDate tzMin (m.endISO.getD m.startISO)).getD 0 -
      (parseJSDate tzMin m.startISO).getD 0)).1
    have k2 := (key occs ((parseJSDate tzMin (m.endISO.getD m.startISO)).getD 0 -
      (parseJSDate tzMin m.startISO).getD 0)).2
    rw [hc] at k1
    omega

/-- Witness for C5: a three-occurrence weekly expansion with the middle
occurrence cancelled yields two occurrences instead of three. -/
theorem C5_witness :
    expandOccurrence ["2025-01-08T10:00:00.000Z"] []
        { uid := "u1", summary := "s", location := "", startISO := "",
          endISO := none, rrule := "", startRaw := "", startTz := "" } 0
        1736330400000 = none ∧
    (expandMaster 0 (fun _ _ _ _ => [1735725600000, 1736330400000, 1736935200000])
        0 0 ["2025-01-08T10:00:00.000Z"] []
        { uid := "u1", summary := "s", location := "", startISO := "",
          endISO := none, rrule := "", startRaw := "", startTz := "" }).length + 1 =
      (expandMaster 0 (fun _ _ _ _ => [1735725600000, 1736330400000, 1736935200000])
        0 0 [] []
        { uid := "u1", summary := "s", location := "", startISO := "",
          endISO := none, rrule := "", startRaw := "", startTz := "" }).length :=
  ⟨(C5_cancelled_instances_skipped _ _ _ 0 _ (by decide)).1,
   (C5_cancelled_instances_skipped ["2025-01-08T10:00:00.000Z"] [] _ 0 1736330400000
      (by decide)).2 0 0 0 _ _ (by decide)⟩

/-- C6: at a generated occurrence instant whose `toISOString` key is
registered as an override (and not cancelled), the expansion emits the
override's fully resolved event unchanged; at every other
(non-cancelled) instant it emits a synthesized event carrying the
master's summary and location. -/
theorem C6_override_substitution
    (cancelled : List String) (ovMap : List (String × CalendarEvent))
    (m : Master) (dur t : Int)
    (hnc : cancelled.contains (toISOString t) = false) :
    (∀ ov, List.lookup (toISOString t) ovMap = some ov →
      expandOccurrence cancelled ovMap m dur t = some ov) ∧
    (List.lookup (toISOString t) ovMap = none →
      expandOccurrence cancelled ovMap m dur t =
        some { id := m.uid ++ toISOString t, subject := m.summary,
               start := toISOString t, endS := toISOString (t + dur),
               location := m.location, isRecurring := true }) := by
  have hm : ¬ toISOString t ∈ cancelled := by simpa using hnc
  constructor
  · intro ov hov
    simp only [expandOccurrence]
    simp [hm, hov]
  · intro hov
    simp only [expandOccurrence]
    simp [hm, hov]

/-- Witness for C6: with an override registered at the occurrence key,
the override's event is emitted verbatim; without one, the synthesized
event carries the master's summary and location. -/
theorem C6_witness :
    (expandOccurrence [] [("2025-01-08T10:00:00.000Z",
        { id := "u1x", subject := "Moved", start := "2025-01-08T11:00:00.000Z",
          endS := "2025-01-08T12:00:00.000Z", location := "Elsewhere",
          isRecurring := true })]
        { uid := "u1", summary := "Weekly", location := "Room",
          startISO := "", endISO := none, rrule := "", startRaw := "",
          startTz := "" } 3600000 1736330400000 =
      some { id := "u1x", subject := "Moved", start := "2025-01-08T11:00:00.000Z",
             endS := "2025-01-08T12:00:00.000Z", location := "Elsewhere",
             isRecurring := true }) ∧
    (expandOccurrence [] []
        { uid := "u1", summary := "Weekly", location := "Room",
          startISO := "", endISO := none, rrule := "", startRaw := "",
          startTz := "" } 3600000 1736330400000 =
      some { id := "u1" ++ toISOString 1736330400000, subject := "Weekly",
             start := toISOString 1736330400000,
             endS := toISOString (1736330400000 + 3600000),
             location := "Room", isRecurring := true }) :=
  ⟨(C6_override_substitution _ _ _ 3600000 1736330400000 (by decide)).1 _ (by decide),
   (C6_override_substitution _ _ _ 3600000 1736330400000 (by decide)).2 (by decide)⟩

end OCE

namespace OCE

/-- C7: for an event whose normalized start and end instants are valid,
the window filter includes it exactly when its start lies in the
window, or its end lies in the window, or it spans the whole window;
in particular an event strictly straddling both window ends is
included. -/
theorem C7_window_inclusion_iff (tzMin lo hi : Int) (ev : CalendarEvent)
    (s e : Int) (hs : effStart tzMin ev = some s)
    (he : effEnd tzMin ev = some e) :
    (filterEvent tzMin lo hi ev = true ↔
      ((lo ≤ s ∧ s ≤ hi) ∨ (lo ≤ e ∧ e ≤ hi) ∨ (s ≤ lo ∧ hi ≤ e))) ∧
    (s < lo → hi < e → filterEvent tzMin lo hi ev = true) := by
  have hf : filterEvent tzMin lo hi ev = includeTest lo hi s e := by
    unfold filterEvent
    rw [hs, he]
  constructor
  · rw [hf]
    unfold includeTest
    simp only [Bool.or_eq_true, Bool.and_eq_true, decide_eq_true_eq]
    omega
  · intro h1 h2
    rw [hf]
    unfold includeTest
    simp only [Bool.or_eq_true, Bool.and_eq_true, decide_eq_true_eq]
    omega

/-- The event of the C7 witness: starts before and ends after the
whole window. -/
def evC7 : CalendarEvent :=
  { id := "s", subject := "spanning", start := "2025-01-01T01:00:00.000Z",
    endS := "2025-12-31T00:00:00.000Z", location := "", isRecurring := false }

/-- Witness for C7: the spans-entire-window case fires even though
neither endpoint lies inside the window. -/
theorem C7_witness :
    effStart 0 evC7 = some 1735693200000 ∧
    effEnd 0 evC7 = some 1767139200000 ∧
    filterEvent 0 1736467200000 1737158399999 evC7 = true :=
  ⟨by decide, by decide,
   (C7_window_inclusion_iff 0 1736467200000 1737158399999 evC7
      1735693200000 1767139200000 (by decide) (by decide)).2
      (by decide) (by decide)⟩

/-- C8: for an event whose start string is a UTC midnight (the all-day
detection) with a strictly later end, the filter subtracts one day from
the end before the inclusion comparison (RFC 5545 exclusive ends). -/
theorem C8_allday_exclusive_end (tzMin lo hi : Int) (ev : CalendarEvent)
    (s e : Int) (hz : endsWithZ ev.start = true)
    (had : isAllDayISO ev.start = true)
    (hs : parseJSDate tzMin ev.start = some s)
    (he : parseJSDate tzMin (if ev.endS = "" then ev.start else ev.endS) = some e)
    (hlt : s < e) :
    effEnd tzMin ev = some (e - 86400000) ∧
    filterEvent tzMin lo hi ev = includeTest lo hi s (e - 86400000) := by
  have hes : effStart tzMin ev = some s := by
    unfold effStart
    simp [hz, hs]
  have hee : effEnd tzMin ev = some (e - 86400000) := by
    unfold effEnd
    rw [he]
    simp only [hz, if_true]
    rw [hes]
    simp [oLt, had, hlt]
  refine ⟨hee, ?_⟩
  unfold filterEvent
  rw [hes, hee]

/-- The all-day event `DTSTART;VALUE=DATE:20250110` /
`DTEND;VALUE=DATE:20250112` after parsing. -/
def evC8 : CalendarEvent :=
  { id := "a", subject := "allday", start := "2025-01-10T00:00:00.000Z",
    endS := "2025-01-12T00:00:00.000Z", location := "", isRecurring := false }

/-- Witness for C8: the Jan 10 - Jan 12 all-day event's comparison end
is Jan 11; it is excluded from a window covering only Jan 12 and
included in a window covering only Jan 11 — it occupies Jan 10-11, not
Jan 10-12. -/
theorem C8_witness :
    effEnd 0 evC8 = some 1736553600000 ∧
    filterEvent 0 1736640000000 1736726399999 evC8 = false ∧
    filterEvent 0 1736553600000 1736639999999 evC8 = true :=
  ⟨(C8_allday_exclusive_end 0 0 0 evC8 1736467200000 1736640000000
      (by decide) (by decide) (by decide) (by decide) (by decide)).1,
   by decide, by decide⟩

/-- If some listed source's fetch rejects, the `Promise.all` join
rejects. -/
theorem collectAll_mem_error (zones : ZoneOracle) (tzMin : Int)
    (between : RRuleOracle) (fetchUrl : String → Except String String)
    (lo hi : Int) :
    ∀ (l : List CalendarSource) (s : CalendarSource) (e : String),
      s ∈ l → fetchUrl s.url = Except.error e →
      ∃ msg, collectAll zones tzMin between fetchUrl lo hi l =
        Except.error msg := by
  intro l
  induction l with
  | nil => exact fun s e hs _ => absurd hs (List.not_mem_nil s)
  | cons hd tl ih =>
    intro s e hs herr
    cases hf : fetchOne zones tzMin between fetchUrl lo hi hd with
    | error msg => exact ⟨msg, by simp [collectAll, hf]⟩
    | ok evs =>
      rcases List.mem_cons.mp hs with rfl | htl
      · exfalso
        unfold fetchOne at hf
        rw [herr] at hf
        exact absurd hf (by simp)
      · obtain ⟨msg, hm⟩ := ih s e htl herr
        refine ⟨msg, ?_⟩
        unfold collectAll
        rw [hf, hm]

/-- C1 (corrected): when any enabled source's fetch rejects (network
error or non-2xx), the whole `fetchEvents` call rejects with a feed
error — the other sources' results are discarded, not returned. -/
theorem C1_amended_fetch_failure_aborts (zones : ZoneOracle) (tzMin : Int)
    (between : RRuleOracle) (fetchUrl : String → Except String String)
    (now : Int) (settings : ObsidianCalendarSettings)
    (s : CalendarSource) (e : String)
    (h1 : s ∈ enabledSources settings)
    (h2 : fetchUrl s.url = Except.error e) :
    ∃ msg, fetchEvents zones tzMin between fetchUrl now settings =
      Except.error (FetchError.feedFailure msg) := by
  have hne : ¬ (enabledSources settings).isEmpty = true := by
    intro hh
    rw [List.isEmpty_iff] at hh
    rw [hh] at h1
    exact absurd h1 (List.not_mem_nil s)
  unfold fetchEvents fetchEventsT
  simp only [hne, if_false, Bool.false_eq_true]
  obtain ⟨msg, hm⟩ := collectAll_mem_error zones tzMin between fetchUrl
    (localMidnight tzMin now - settings.daysBefore * 24 * 3600 * 1000)
    (localMidnight tzMin (localMidnight tzMin now +
      settings.daysAhead * 24 * 3600 * 1000) + (86400000 - 1))
    (enabledSources settings) s e h1 h2
  rw [hm]
  exact ⟨msg, rfl⟩

def srcGood : CalendarSource :=
  { id := "good", name := "Good", url := "https://good", enabled := true }

def srcBad : CalendarSource :=
  { id := "bad", name := "Bad", url := "https://bad", enabled := true }

/-- A healthy feed with three events inside the visible window around
2025-01-10.  The values are floating compact wall times (no `Z`, no
colons): `readProp` keeps them whole, and `toISO` routes them to the
digit-based `zonedWallTimeToUTCISO` floating branch, whose local
round trip lands on the wall clock read as UTC (the process here runs
at offset 0). -/
def feedC1 : String :=
  "BEGIN:VEVENT\nUID:a\nSUMMARY:One\nDTSTART:20250111T120000\nDTEND:20250111T130000\nEND:VEVENT\n" ++
  "BEGIN:VEVENT\nUID:b\nSUMMARY:Two\nDTSTART:20250112T120000\nDTEND:20250112T130000\nEND:VEVENT\n" ++
  "BEGIN:VEVENT\nUID:c\nSUMMARY:Three\nDTSTART:20250113T120000\nDTEND:20250113T130000\nEND:VEVENT\n"

/-- `requestUrl` oracle: the good URL yields the healthy feed, the bad
URL rejects with an HTTP 500. -/
def fetchC1 : String → Except String String := fun u =>
  if u = "https://good" then Except.ok feedC1 else Except.error "HTTP 500"

def zonesNone : ZoneOracle := fun _ => none

def noRules : RRuleOracle := fun _ _ _ _ => []

/-- Counterexample to C1 as stated: with one healthy source (three
in-window events) and one source answering HTTP 500, `fetchEvents` does
not return the three healthy events — it rejects; the same call with
only the healthy source configured returns exactly its three events. -/
theorem C1_counterexample :
    fetchEvents zonesNone 0 noRules fetchC1 1736510400000
        { calendars := [srcGood, srcBad], daysBefore := 0, daysAhead := 7 } =
      Except.error (FetchError.feedFailure "HTTP 500") ∧
    fetchEvents zonesNone 0 noRules fetchC1 1736510400000
        { calendars := [srcGood], daysBefore := 0, daysAhead := 7 } =
      Except.ok ((parseICS zonesNone 0 noRules feedC1 1736467200000
        1737158399999).map (withMeta srcGood)) ∧
    (parseICS zonesNone 0 noRules feedC1 1736467200000 1737158399999).length = 3 := by
  refine ⟨by decide, by decide, by decide⟩

/-- Witness for C1's amended statement at the counterexample
configuration: the bad source is enabled, its fetch rejects, and the
whole call fails. -/
theorem C1_witness :
    srcBad ∈ enabledSources
      { calendars := [srcGood, srcBad], daysBefore := 0, daysAhead := 7 } ∧
    fetchC1 srcBad.url = Except.error "HTTP 500" ∧
    (fetchEvents zonesNone 0 noRules fetchC1 1736510400000
      { calendars := [srcGood, srcBad], daysBefore := 0, daysAhead := 7 }).isOk =
      false :=
  ⟨by decide, by decide, by
    obtain ⟨msg, hm⟩ := C1_amended_fetch_failure_aborts zonesNone 0 noRules
      fetchC1 1736510400000
      { calendars := [srcGood, srcBad], daysBefore := 0, daysAhead := 7 }
      srcBad "HTTP 500" (by decide) (by decide)
    rw [hm]
    rfl⟩

end OCE

namespace OCE

theorem mem_of_lookup_some {α : Type} {k : String} {v : α}
    {l : List (String × α)} (h : List.lookup k l = some v) : (k, v) ∈ l := by
  induction l with
  | nil => simp [List.lookup] at h
  | cons p r ih =>
    obtain ⟨k', v'⟩ := p
    rw [List.lookup] at h
    by_cases hk : (k == k') = true
    · rw [hk] at h
      injection h with h
      subst h
      have : k = k' := by simpa using hk
      subst this
      exact List.mem_cons_self _ _
    · rw [Bool.not_eq_true] at hk
      rw [hk] at h
      exact List.mem_cons_of_mem _ (ih h)

theorem mem_upsert {α : Type} {k : String} {v : α} {l : List (String × α)}
    {x : String × α} (h : x ∈ upsert k v l) : x = (k, v) ∨ x ∈ l := by
  induction l with
  | nil =>
    rw [upsert] at h
    rcases List.mem_singleton.mp h with rfl
    exact Or.inl rfl
  | cons p r ih =>
    obtain ⟨k', v'⟩ := p
    rw [upsert] at h
    by_cases hk : k' = k
    · rw [if_pos hk] at h
      rcases List.mem_cons.mp h with rfl | hr
      · exact Or.inl rfl
      · exact Or.inr (List.mem_cons_of_mem _ hr)
    · rw [if_neg hk] at h
      rcases List.mem_cons.mp h with rfl | hr
      · exact Or.inr (List.mem_cons_self _ _)
      · rcases ih hr with h1 | h2
        · exact Or.inl h1
        · exact Or.inr (List.mem_cons_of_mem _ h2)

/-- Start and end strings are `Z`-terminated UTC ISO strings. -/
def ZOK (ev : CalendarEvent) : Prop :=
  endsWithZ ev.start = true ∧ endsWithZ ev.endS = true

theorem ZOK_mkStandalone {f : BlockFields} {s : String} {e : Option String}
    (hs : endsWithZ s = true) (he : ∀ x, e = some x → endsWithZ x = true) :
    ZOK (mkStandalone f s e) := by
  constructor
  · exact hs
  · show endsWithZ (e.getD s) = true
    cases e with
    | none => exact hs
    | some x => exact he x rfl

theorem ZOK_mkOverride {f : BlockFields} {r s : String} {e : Option String}
    (hs : endsWithZ s = true) (he : ∀ x, e = some x → endsWithZ x = true) :
    ZOK (mkOverride f r s e) := by
  constructor
  · exact hs
  · show endsWithZ (e.getD s) = true
    cases e with
    | none => exact hs
    | some x => exact he x rfl

theorem toISO_endsZ {zones : ZoneOracle} {tzMin : Int} {val : String}
    {tz : Option String} {s : String} (h : toISO zones tzMin val tz = some s) :
    endsWithZ s = true := by
  obtain ⟨t, rfl⟩ := toISO_shape zones tzMin val tz s h
  exact endsWithZ_toISOString t

/-- The parse-state invariant: every accumulated standalone event and
every registered override has `Z`-terminated start/end strings. -/
def InvZ (st : ParseState) : Prop :=
  (∀ ev ∈ st.events, ZOK ev) ∧
  (∀ p ∈ st.overrides, ∀ q ∈ p.2, ZOK q.2)

theorem processBlock_invZ (zones : ZoneOracle) (tzMin : Int)
    (st : ParseState) (block : String) (h : InvZ st) :
    InvZ (processBlock zones tzMin st block) := by
  unfold processBlock
  simp only
  split
  · exact h
  · rename_i startISO hstart
    split
    · exact h
    · split
      · exact h
      · split
        · split
          · exact h
          · rename_i ridISO hrid
            split
            · -- cancelled: events and overrides unchanged
              exact ⟨h.1, h.2⟩
            · -- override registered
              refine ⟨h.1, ?_⟩
              intro p hp q hq
              rcases mem_upsert hp with rfl | hmem
              · rcases mem_upsert hq with rfl | hmem2
                · exact ZOK_mkOverride (toISO_endsZ hstart)
                    (fun x hx => toISO_endsZ hx)
                · -- q in the previous inner map for this uid
                  cases hlk : List.lookup _ st.overrides with
                  | none =>
                    rw [hlk] at hmem2
                    simp at hmem2
                  | some mp =>
                    rw [hlk] at hmem2
                    exact h.2 _ (mem_of_lookup_some hlk) _ hmem2
              · exact h.2 _ hmem _ hq
        · split
          · refine ⟨?_, h.2⟩
            intro ev hev
            rcases List.mem_append.mp hev with hold | hnew
            · exact h.1 ev hold
            · rcases List.mem_singleton.mp hnew with rfl
              exact ZOK_mkStandalone (toISO_endsZ hstart)
                (fun x hx => toISO_endsZ hx)
          · exact h

end OCE

namespace OCE

theorem foldl_invZ (zones : ZoneOracle) (tzMin : Int) :
    ∀ (blocks : List String) (st : ParseState), InvZ st →
      InvZ (blocks.foldl (processBlock zones tzMin) st) := by
  intro blocks
  induction blocks with
  | nil => exact fun st h => h
  | cons b r ih =>
    intro st h
    exact ih _ (processBlock_invZ zones tzMin st b h)

theorem expandMaster_ZOK {tzMin : Int} {between : RRuleOracle}
    {startB endB : Int} {cancelled : List String}
    {ovMap : List (String × CalendarEvent)} {m : Master} {ev : CalendarEvent}
    (hov : ∀ q ∈ ovMap, ZOK q.2)
    (hev : ev ∈ expandMaster tzMin between startB endB cancelled ovMap m) :
    ZOK ev := by
  unfold expandMaster at hev
  obtain ⟨t, _, hsome⟩ := List.mem_filterMap.mp hev
  simp only [expandOccurrence] at hsome
  split at hsome
  · exact absurd hsome (by simp)
  · split at hsome
    · rename_i ov hlk
      injection hsome with hsome
      subst hsome
      exact hov _ (mem_of_lookup_some hlk)
    · injection hsome with hsome
      subst hsome
      exact ⟨endsWithZ_toISOString _, endsWithZ_toISOString _⟩

theorem effStart_of_Z {ev : CalendarEvent} (h : endsWithZ ev.start = true)
    (tz' : Int) : effStart tz' ev = parseJSDate tz' ev.start := by
  unfold effStart
  simp [h]

/-- C10: every event `parseICS` emits carries start and end strings
produced by `toISOString` — full UTC ISO strings ending in `Z` — so
the window filter's floating-time shift (the non-`Z` branch) is never
taken for parser-produced events. -/
theorem C10_parser_events_are_utc_Z (zones : ZoneOracle) (tzMin : Int)
    (between : RRuleOracle) (icsText : String) (startB endB : Int) :
    ∀ ev ∈ parseICS zones tzMin between icsText startB endB,
      endsWithZ ev.start = true ∧ endsWithZ ev.endS = true ∧
      ∀ tz', effStart tz' ev = parseJSDate tz' ev.start := by
  intro ev hev
  simp only [parseICS] at hev
  have hev2 := (List.perm_insertionSort startLe _).mem_iff.mp hev
  have hInv : InvZ ((jsSplit (String.mk (unfoldICS icsText.data)) "BEGIN:VEVENT"
      |>.drop 1).foldl (processBlock zones tzMin) {}) :=
    foldl_invZ zones tzMin _ _ ⟨by simp, by simp [ParseState.overrides]⟩
  have hZ : ZOK ev := by
    rcases List.mem_append.mp hev2 with hs | hm
    · exact hInv.1 ev hs
    · obtain ⟨p, hp, hin⟩ := List.mem_flatMap.mp hm
      refine expandMaster_ZOK ?_ hin
      intro q hq
      cases hlk : List.lookup p.1 (((jsSplit (String.mk (unfoldICS icsText.data))
          "BEGIN:VEVENT" |>.drop 1).foldl (processBlock zones tzMin)
          {}).overrides) with
      | none =>
        rw [hlk] at hq
        simp at hq
      | some mp =>
        rw [hlk] at hq
        exact hInv.2 _ (mem_of_lookup_some hlk) _ hq
  exact ⟨hZ.1, hZ.2, effStart_of_Z hZ.1⟩

/-- The standalone event of `feedC1`'s first block. -/
def evC10 : CalendarEvent :=
  { id := "a2025-01-11T12:00:00.000Z", subject := "One",
    start := "2025-01-11T12:00:00.000Z", endS := "2025-01-11T13:00:00.000Z",
    isRecurring := false, location := "" }

/-- Witness for C10 at the first event of the healthy concrete feed
(the no-shift property instantiated at a process offset of 300
minutes). -/
theorem C10_witness :
    endsWithZ evC10.start = true ∧ endsWithZ evC10.endS = true ∧
    effStart 300 evC10 = parseJSDate 300 evC10.start :=
  ⟨(C10_parser_events_are_utc_Z zonesNone 0 noRules feedC1 0 0 evC10 (by decide)).1,
   (C10_parser_events_are_utc_Z zonesNone 0 noRules feedC1 0 0 evC10 (by decide)).2.1,
   (C10_parser_events_are_utc_Z zonesNone 0 noRules feedC1 0 0 evC10 (by decide)).2.2 300⟩

end OCE

namespace OCE

/-! ## Calendar arithmetic for the sorting claim

`toISOString` is strictly monotone (as a code-point-ordered string) on
instants whose year lies in 0-9999.  The proof goes through the era
decomposition of `civilFromDays`: the year-of-era formula is validated
on the 400 years of one era by computation, and monotonicity of the
intermediate transform lifts the table to every day number. -/

def yearStartN (k : Nat) : Nat := 365 * k + k / 4 - k / 100

def leapN (k : Nat) : Nat :=
  if ((k + 1) % 4 == 0 && (k + 1) % 100 != 0) || (k + 1) % 400 == 0 then 1 else 0

def nTransN (x : Nat) : Nat := x - x / 1460 + x / 36524 - x / 146096

theorem yearTable :
    ∀ k < 400, 365 * k ≤ nTransN (yearStartN k) ∧
      nTransN (yearStartN k + 364 + leapN k) ≤ 365 * k + 364 ∧
      (k < 399 → yearStartN (k + 1) = yearStartN k + 365 + leapN k) := by decide

theorem yearStart399 : yearStartN 399 = 145731 ∧ leapN 399 = 1 := by decide

theorem bracketN : ∀ doe : Nat, doe < 146097 →
    ∃ k, k < 400 ∧ yearStartN k ≤ doe ∧ doe < yearStartN k + 365 + leapN k := by
  intro doe
  induction doe with
  | zero => exact fun _ => ⟨0, by decide, by decide, by decide⟩
  | succ n ih =>
    intro hlt
    obtain ⟨k, hk, h1, h2⟩ := ih (by omega)
    by_cases hend : n + 1 < yearStartN k + 365 + leapN k
    · exact ⟨k, hk, by omega, hend⟩
    · by_cases hk399 : k < 399
      · have hrec := (yearTable k hk).2.2 hk399
        exact ⟨k + 1, by omega, by omega, by omega⟩
      · have h399 : k = 399 := by omega
        subst h399
        have h0 := yearStart399
        omega

def nTransI (x : Int) : Int := x - x / 1460 + x / 36524 - x / 146096

theorem q3_eq (x : Int) : x / 146096 = x / 36524 / 4 := by omega

theorem nTransI_mono {a b : Int} (h : a ≤ b) : nTransI a ≤ nTransI b := by
  unfold nTransI
  rw [q3_eq a, q3_eq b]
  have h1 : a - a / 1460 ≤ b - b / 1460 := by omega
  have h2 : a / 36524 ≤ b / 36524 := Int.ediv_le_ediv (by norm_num) h
  have h3 : a / 36524 - a / 36524 / 4 ≤ b / 36524 - b / 36524 / 4 := by omega
  omega

theorem nTrans_cast (x : Nat) : nTransI (x : Int) = (nTransN x : Int) := by
  unfold nTransI nTransN
  have h1 : ((x / 1460 : Nat) : Int) = (x : Int) / 1460 := Int.ofNat_ediv x 1460
  have h2 : ((x / 36524 : Nat) : Int) = (x : Int) / 36524 := Int.ofNat_ediv x 36524
  have h3 : ((x / 146096 : Nat) : Int) = (x : Int) / 146096 := Int.ofNat_ediv x 146096
  have h4 : x / 1460 ≤ x := Nat.div_le_self x 1460
  have h5 : x / 146096 ≤ x / 36524 := by omega
  omega

def yearStartI (k : Int) : Int := 365 * k + k / 4 - k / 100

def leapI (k : Int) : Int :=
  if ((k + 1) % 4 = 0 ∧ ¬ (k + 1) % 100 = 0) ∨ (k + 1) % 400 = 0 then 1 else 0

theorem yearStartI_cast (k : Nat) : yearStartI (k : Int) = (yearStartN k : Int) := by
  unfold yearStartI yearStartN
  have h1 : ((k / 4 : Nat) : Int) = (k : Int) / 4 := Int.ofNat_ediv k 4
  have h2 : ((k / 100 : Nat) : Int) = (k : Int) / 100 := Int.ofNat_ediv k 100
  have h3 : k / 100 ≤ 365 * k + k / 4 := by omega
  omega

theorem leapI_cast (k : Nat) (hk : k < 400) : leapI (k : Int) = (leapN k : Int) := by
  unfold leapI leapN
  have h4 : ((k + 1) % 4 == 0) = decide (((k : Int) + 1) % 4 = 0) := by
    rcases Nat.lt_or_ge ((k + 1) % 4) 1 with h | h <;>
      · rw [Bool.eq_iff_iff]
        simp only [beq_iff_eq, decide_eq_true_eq]
        omega
  have h100 : ((k + 1) % 100 != 0) = !decide (((k : Int) + 1) % 100 = 0) := by
    rw [Bool.eq_iff_iff]
    simp only [bne_iff_ne, ne_eq, Bool.not_eq_true', decide_eq_false_iff_not]
    omega
  have h400 : ((k + 1) % 400 == 0) = decide (((k : Int) + 1) % 400 = 0) := by
    rw [Bool.eq_iff_iff]
    simp only [beq_iff_eq, decide_eq_true_eq]
    omega
  split_ifs with hI <;> rename_i hN
  · rfl
  · exfalso
    rcases hI with ⟨ha, hb⟩ | hc
    · have : (k + 1) % 4 = 0 := by omega
      have : ¬ (k + 1) % 100 = 0 := by omega
      simp_all
    · have : (k + 1) % 400 = 0 := by omega
      simp_all
  · exfalso
    rcases Bool.or_eq_true _ _ |>.mp hN with hab | hc
    · rcases Bool.and_eq_true _ _ |>.mp hab with ⟨ha, hb⟩
      have ha' : (k + 1) % 4 = 0 := by simpa using ha
      have hb' : ¬ (k + 1) % 100 = 0 := by simpa using hb
      exact hI (Or.inl ⟨by omega, by omega⟩)
    · have hc' : (k + 1) % 400 = 0 := by simpa using hc
      exact hI (Or.inr (by omega))
  · rfl

theorem yearStartI_step (k : Int) (h0 : 0 ≤ k) (h2 : k ≤ 398) :
    yearStartI (k + 1) = yearStartI k + 365 + leapI k := by
  unfold yearStartI leapI
  split_ifs <;> omega

theorem yearStartI_gap (j k : Int) (h0 : 0 ≤ j) (hjk : j < k) (h399 : k ≤ 399) :
    yearStartI j + 365 + leapI j ≤ yearStartI k := by
  have key : ∀ n : Nat, 0 ≤ j → j + 1 + n ≤ 399 →
      yearStartI j + 365 + leapI j ≤ yearStartI (j + 1 + n) := by
    intro n
    induction n with
    | zero =>
      intro hj0 hn
      rw [show j + 1 + (0 : Nat) = j + 1 by push_cast; ring]
      exact le_of_eq (yearStartI_step j hj0 (by omega)).symm
    | succ i ih =>
      intro hj0 hn
      have hstep : yearStartI (j + 1 + i + 1) =
          yearStartI (j + 1 + i) + 365 + leapI (j + 1 + i) := by
        refine yearStartI_step (j + 1 + i) (by omega) (by push_cast at hn ⊢; omega)
      have hL : 0 ≤ leapI (j + 1 + i) := by
        unfold leapI
        split_ifs <;> omega
      have := ih hj0 (by push_cast at hn ⊢; omega)
      rw [show ((j + 1 + (i + 1 : Nat)) : Int) = j + 1 + i + 1 by push_cast; ring]
      omega
  obtain ⟨n, hn⟩ : ∃ n : Nat, k = j + 1 + n := ⟨(k - j - 1).toNat, by omega⟩
  rw [hn]
  exact key n h0 (by omega)

end OCE

namespace OCE

theorem bracketI (doe : Int) (h0 : 0 ≤ doe) (h1 : doe ≤ 146096) :
    ∃ k : Int, 0 ≤ k ∧ k ≤ 399 ∧ yearStartI k ≤ doe ∧
      doe < yearStartI k + 365 + leapI k ∧ nTransI doe / 365 = k := by
  obtain ⟨kN, hkN, hb1, hb2⟩ := bracketN doe.toNat (by omega)
  refine ⟨(kN : Int), by omega, by omega, ?_, ?_, ?_⟩
  · rw [yearStartI_cast]
    omega
  · rw [yearStartI_cast, leapI_cast kN hkN]
    omega
  · have hdoe : doe = ((doe.toNat : Nat) : Int) := by omega
    have hlow : (365 * kN : Int) ≤ nTransI doe := by
      have hm := nTransI_mono (a := (yearStartN kN : Int)) (b := doe)
        (by omega)
      rw [nTrans_cast] at hm
      have := (yearTable kN hkN).1
      omega
    have hhigh : nTransI doe ≤ 365 * kN + 364 := by
      have hm := nTransI_mono (a := doe)
        (b := ((yearStartN kN + 364 + leapN kN : Nat) : Int)) (by push_cast; omega)
      rw [nTrans_cast] at hm
      have := (yearTable kN hkN).2.1
      omega
    omega

/-- The era/year-of-era/day-of-year/month-index decomposition of
`civilFromDays`, with the range facts the monotonicity and bound proofs
need. -/
theorem civilParts (z : Int) :
    ∃ era yoe doy mp : Int,
      era = (z + 719468) / 146097 ∧
      0 ≤ yoe ∧ yoe ≤ 399 ∧
      yearStartI yoe ≤ z + 719468 - era * 146097 ∧
      z + 719468 - era * 146097 < yearStartI yoe + 365 + leapI yoe ∧
      doy = z + 719468 - era * 146097 - yearStartI yoe ∧
      mp = (5 * doy + 2) / 153 ∧ 0 ≤ mp ∧ mp ≤ 11 ∧
      civilFromDays z =
        (if 10 ≤ mp then era * 400 + yoe + 1 else era * 400 + yoe,
         if mp < 10 then mp + 3 else mp - 9,
         doy - (153 * mp + 2) / 5 + 1) := by
  obtain ⟨k, hk0, hk399, hbl, hbh, hdiv⟩ :=
    bracketI (z + 719468 - ((z + 719468) / 146097) * 146097) (by omega) (by omega)
  have hLnn : 0 ≤ leapI k := by
    unfold leapI
    split_ifs <;> omega
  have hdoy0 : 0 ≤ z + 719468 - ((z + 719468) / 146097) * 146097 - yearStartI k := by
    omega
  have hdoy365 : z + 719468 - ((z + 719468) / 146097) * 146097 - yearStartI k ≤ 365 := by
    unfold leapI at hbh
    split_ifs at hbh <;> omega
  refine ⟨(z + 719468) / 146097, k, _, _, rfl, hk0, hk399, hbl, hbh, rfl, rfl,
    by omega, by omega, ?_⟩
  unfold civilFromDays
  have hyoe : (z + 719468 - (z + 719468) / 146097 * 146097 -
      ((z + 719468 - (z + 719468) / 146097 * 146097) / 1460) +
      (z + 719468 - (z + 719468) / 146097 * 146097) / 36524 -
      (z + 719468 - (z + 719468) / 146097 * 146097) / 146096) / 365 = k := hdiv
  simp only
  rw [hyoe]
  rw [show (365 * k + k / 4 - k / 100 : Int) = yearStartI k from rfl]
  set doe := z + 719468 - (z + 719468) / 146097 * 146097 with hdoe
  set doy := doe - yearStartI k with hdoyd
  set mp := (5 * doy + 2) / 153 with hmp
  have hmp0 : 0 ≤ mp := by omega
  have hmp11 : mp ≤ 11 := by omega
  have hmcases : (mp < 10 ∧ ¬ 10 ≤ mp) ∨ (¬ mp < 10 ∧ 10 ≤ mp) := by omega
  rcases hmcases with ⟨hlt, hge⟩ | ⟨hlt, hge⟩
  · rw [if_pos hlt, if_neg (show ¬ (mp + 3 ≤ 2) by omega), if_neg hge]
    simp only [Prod.mk.injEq]
    constructor
    · ring
    · trivial
  · rw [if_neg hlt, if_pos (show mp - 9 ≤ 2 by omega), if_pos hge]
    simp only [Prod.mk.injEq]
    constructor
    · ring
    · trivial

end OCE

namespace OCE

/-- Chronological order of day numbers is lexicographic order of their
civil dates. -/
theorem civilFromDays_lt {za zb : Int} (h : za < zb) :
    (civilFromDays za).1 < (civilFromDays zb).1 ∨
    ((civilFromDays za).1 = (civilFromDays zb).1 ∧
      ((civilFromDays za).2.1 < (civilFromDays zb).2.1 ∨
       ((civilFromDays za).2.1 = (civilFromDays zb).2.1 ∧
        (civilFromDays za).2.2 < (civilFromDays zb).2.2))) := by
  obtain ⟨eA, yA, dA, mA, heA, hy0A, hy399A, hblA, hbhA, hdA, hmA, hm0A, hm11A, htA⟩ :=
    civilParts za
  obtain ⟨eB, yB, dB, mB, heB, hy0B, hy399B, hblB, hbhB, hdB, hmB, hm0B, hm11B, htB⟩ :=
    civilParts zb
  rw [htA, htB]
  dsimp only
  have hLA : 0 ≤ leapI yA ∧ leapI yA ≤ 1 := by
    unfold leapI
    split_ifs <;> omega
  have hLB : 0 ≤ leapI yB ∧ leapI yB ≤ 1 := by
    unfold leapI
    split_ifs <;> omega
  have hele : eA ≤ eB := by omega
  by_cases heeq : eA = eB
  · subst heeq
    have hdoelt : za + 719468 - eA * 146097 < zb + 719468 - eA * 146097 := by omega
    have hyle : yA ≤ yB := by
      by_contra hylt
      push_neg at hylt
      have hgap := yearStartI_gap yB yA hy0B hylt hy399A
      omega
    by_cases hyeq : yA = yB
    · subst hyeq
      have hdoylt : dA < dB := by omega
      have hmple : mA ≤ mB := by omega
      by_cases hmpeq : mA = mB
      · subst hmpeq
        right
        refine ⟨by split_ifs <;> omega, ?_⟩
        right
        exact ⟨by split_ifs <;> omega, by omega⟩
      · have hmplt : mA < mB := by omega
        split_ifs <;> omega
    · have hylt : yA < yB := by omega
      split_ifs <;> omega
  · have helt : eA < eB := by omega
    split_ifs <;> omega

/-- On day numbers of years 0-9999, the civil components are in the
4-digit/2-digit ranges. -/
theorem civilFromDays_bounds {z : Int} (h0 : -719528 ≤ z) (h1 : z ≤ 2932896) :
    0 ≤ (civilFromDays z).1 ∧ (civilFromDays z).1 ≤ 9999 ∧
    1 ≤ (civilFromDays z).2.1 ∧ (civilFromDays z).2.1 ≤ 12 ∧
    1 ≤ (civilFromDays z).2.2 ∧ (civilFromDays z).2.2 ≤ 31 := by
  obtain ⟨e, y, d, mp, he, hy0, hy399, hbl, hbh, hd, hm, hm0, hm11, ht⟩ :=
    civilParts z
  rw [ht]
  dsimp only
  have hL : 0 ≤ leapI y ∧ leapI y ≤ 1 := by
    unfold leapI
    split_ifs <;> omega
  have hys399 : yearStartI 399 = 145731 := by decide
  have hyub : y ≤ 398 → yearStartI y + 365 + leapI y ≤ yearStartI 399 := by
    intro hle
    by_cases hy : y = 399
    · omega
    · exact yearStartI_gap y 399 hy0 (by omega) (by omega)
  have he0 : -1 ≤ e ∧ e ≤ 24 := by omega
  have hdd : 1 ≤ d - (153 * mp + 2) / 5 + 1 ∧ d - (153 * mp + 2) / 5 + 1 ≤ 31 := by
    omega
  refine ⟨?_, ?_, by split_ifs <;> omega, by split_ifs <;> omega, hdd.1, hdd.2⟩
  · -- year lower bound: the era -1 corner is late year -1, bumped to 0
    by_cases hem : e = -1
    · subst hem
      have hdoe : z + 719468 - (-1) * 146097 ≥ 146037 := by omega
      have hy399' : y = 399 := by
        by_contra hne
        have := hyub (by omega)
        omega
      subst hy399'
      have hdoy : d ≥ 306 := by
        rw [hd]
        omega
      have hmp10 : 10 ≤ mp := by omega
      rw [if_pos hmp10]
      omega
    · have : 0 ≤ e := by omega
      split_ifs <;> omega
  · -- year upper bound: the era 24 corner stays at 9999
    by_cases hem : e = 24
    · subst hem
      by_cases hy399' : y = 399
      · subst hy399'
        have hnotmp : ¬ 10 ≤ mp := by
          intro hmp10
          have hdoy : d ≥ 306 := by omega
          have : z + 719468 - 24 * 146097 ≥ 145731 + 306 := by omega
          omega
        rw [if_neg hnotmp]
        omega
      · have := hyub (by omega)
        split_ifs <;> omega
    · have : e ≤ 23 := by omega
      split_ifs <;> omega

end OCE

namespace OCE

/-! ## Code-point monotonicity of `toISOString` on 4-digit years -/

theorem lexLt_cons_same (c : Char) (r1 r2 : List Char) :
    lexLt (c :: r1) (c :: r2) = lexLt r1 r2 := by
  simp only [lexLt]
  rw [if_neg (by omega), if_neg (by omega)]

theorem lexLt_append_same (l r1 r2 : List Char) :
    lexLt (l ++ r1) (l ++ r2) = lexLt r1 r2 := by
  induction l with
  | nil => rfl
  | cons c cs ih =>
    show lexLt (c :: (cs ++ r1)) (c :: (cs ++ r2)) = lexLt r1 r2
    rw [lexLt_cons_same, ih]

theorem lexLt_append_congr {l1 l2 : List Char} (h : l1 = l2)
    {r1 r2 : List Char} (hr : lexLt r1 r2 = true) :
    lexLt (l1 ++ r1) (l2 ++ r2) = true := by
  subst h
  rw [lexLt_append_same]
  exact hr

theorem lexLt_cons_congr {c1 c2 : Char} (h : c1 = c2)
    {r1 r2 : List Char} (hr : lexLt r1 r2 = true) :
    lexLt (c1 :: r1) (c2 :: r2) = true := by
  subst h
  rw [lexLt_cons_same]
  exact hr

theorem dCh_toNat {a : Int} (h0 : 0 ≤ a) (h9 : a ≤ 9) :
    (dCh a).toNat = 48 + a.toNat := by
  unfold dCh
  have hn : a.toNat ≤ 9 := by omega
  set n := a.toNat with hdef
  interval_cases n <;> decide

theorem lexLt_dCh_cons {a b : Int} (h0a : 0 ≤ a) (h9a : a ≤ 9)
    (h0b : 0 ≤ b) (h9b : b ≤ 9) (hab : a < b) (r1 r2 : List Char) :
    lexLt (dCh a :: r1) (dCh b :: r2) = true := by
  have ha := dCh_toNat h0a h9a
  have hb := dCh_toNat h0b h9b
  unfold lexLt
  rw [if_pos (by omega)]

theorem pad2_lt {a b : Int} (h0a : 0 ≤ a) (h99a : a ≤ 99)
    (h0b : 0 ≤ b) (h99b : b ≤ 99) (hab : a < b) (r1 r2 : List Char) :
    lexLt (pad2L a ++ r1) (pad2L b ++ r2) = true := by
  have hc : a / 10 < b / 10 ∨ (a / 10 = b / 10 ∧ a % 10 < b % 10) := by omega
  rw [show pad2L a ++ r1 = dCh (a / 10) :: dCh (a % 10) :: r1 from rfl,
    show pad2L b ++ r2 = dCh (b / 10) :: dCh (b % 10) :: r2 from rfl]
  rcases hc with h | ⟨he, h⟩
  · exact lexLt_dCh_cons (by omega) (by omega) (by omega) (by omega) h _ _
  · rw [he, lexLt_cons_same]
    exact lexLt_dCh_cons (by omega) (by omega) (by omega) (by omega) h _ _

theorem pad3_lt {a b : Int} (h0a : 0 ≤ a) (h999a : a ≤ 999)
    (h0b : 0 ≤ b) (h999b : b ≤ 999) (hab : a < b) (r1 r2 : List Char) :
    lexLt (pad3L a ++ r1) (pad3L b ++ r2) = true := by
  have hc : a / 100 < b / 100 ∨ (a / 100 = b / 100 ∧
      (a / 10 % 10 < b / 10 % 10 ∨ (a / 10 % 10 = b / 10 % 10 ∧
        a % 10 < b % 10))) := by omega
  rw [show pad3L a ++ r1 =
      dCh (a / 100) :: dCh (a / 10 % 10) :: dCh (a % 10) :: r1 from rfl,
    show pad3L b ++ r2 =
      dCh (b / 100) :: dCh (b / 10 % 10) :: dCh (b % 10) :: r2 from rfl]
  rcases hc with h | ⟨h1, h | ⟨h2, h⟩⟩
  · exact lexLt_dCh_cons (by omega) (by omega) (by omega) (by omega) h _ _
  · rw [h1, lexLt_cons_same]
    exact lexLt_dCh_cons (by omega) (by omega) (by omega) (by omega) h _ _
  · rw [h1, lexLt_cons_same, h2, lexLt_cons_same]
    exact lexLt_dCh_cons (by omega) (by omega) (by omega) (by omega) h _ _

theorem pad4_lt {a b : Int} (h0a : 0 ≤ a) (h4a : a ≤ 9999)
    (h0b : 0 ≤ b) (h4b : b ≤ 9999) (hab : a < b) (r1 r2 : List Char) :
    lexLt (pad4L a ++ r1) (pad4L b ++ r2) = true := by
  have hc : a / 1000 < b / 1000 ∨ (a / 1000 = b / 1000 ∧
      (a / 100 % 10 < b / 100 % 10 ∨ (a / 100 % 10 = b / 100 % 10 ∧
        (a / 10 % 10 < b / 10 % 10 ∨ (a / 10 % 10 = b / 10 % 10 ∧
          a % 10 < b % 10))))) := by omega
  rw [show pad4L a ++ r1 = dCh (a / 1000) :: dCh (a / 100 % 10) ::
      dCh (a / 10 % 10) :: dCh (a % 10) :: r1 from rfl,
    show pad4L b ++ r2 = dCh (b / 1000) :: dCh (b / 100 % 10) ::
      dCh (b / 10 % 10) :: dCh (b % 10) :: r2 from rfl]
  rcases hc with h | ⟨h1, h | ⟨h2, h | ⟨h3, h⟩⟩⟩
  · exact lexLt_dCh_cons (by omega) (by omega) (by omega) (by omega) h _ _
  · rw [h1, lexLt_cons_same]
    exact lexLt_dCh_cons (by omega) (by omega) (by omega) (by omega) h _ _
  · rw [h1, lexLt_cons_same, h2, lexLt_cons_same]
    exact lexLt_dCh_cons (by omega) (by omega) (by omega) (by omega) h _ _
  · rw [h1, lexLt_cons_same, h2, lexLt_cons_same, h3, lexLt_cons_same]
    exact lexLt_dCh_cons (by omega) (by omega) (by omega) (by omega) h _ _

/-- Instants whose civil year is 0-9999 (the 24-character 4-digit-year
`toISOString` format). -/
def inRangeISO (t : Int) : Prop :=
  -62167219200000 ≤ t ∧ t ≤ 253402300799999

/-- Character-list shape of `toISOString` for 4-digit years. -/
theorem toISOString_data (t : Int)
    (hy0 : 0 ≤ (civilFromDays (t / 86400000)).1)
    (hy9 : (civilFromDays (t / 86400000)).1 ≤ 9999) :
    (toISOString t).data =
      pad4L (civilFromDays (t / 86400000)).1 ++
      '-' :: pad2L (civilFromDays (t / 86400000)).2.1 ++
      '-' :: pad2L (civilFromDays (t / 86400000)).2.2 ++
      'T' :: pad2L (t % 86400000 / 3600000) ++
      ':' :: pad2L (t % 86400000 / 60000 % 60) ++
      ':' :: pad2L (t % 86400000 / 1000 % 60) ++
      '.' :: pad3L (t % 86400000 % 1000) ++ ['Z'] := by
  unfold toISOString
  dsimp only
  rw [if_pos ⟨hy0, hy9⟩]

set_option maxHeartbeats 1000000 in
/-- `toISOString` is strictly increasing in code-point order on
instants with 4-digit years. -/
theorem toISOString_lt {ta tb : Int} (hra : inRangeISO ta)
    (hrb : inRangeISO tb) (h : ta < tb) :
    lexLt (toISOString ta).data (toISOString tb).data = true := by
  have hdayA : -719528 ≤ ta / 86400000 ∧ ta / 86400000 ≤ 2932896 := by
    obtain ⟨l, r⟩ := hra
    omega
  have hdayB : -719528 ≤ tb / 86400000 ∧ tb / 86400000 ≤ 2932896 := by
    obtain ⟨l, r⟩ := hrb
    omega
  obtain ⟨hy0A, hy9A, hm1A, hm12A, hd1A, hd31A⟩ :=
    civilFromDays_bounds hdayA.1 hdayA.2
  obtain ⟨hy0B, hy9B, hm1B, hm12B, hd1B, hd31B⟩ :=
    civilFromDays_bounds hdayB.1 hdayB.2
  rw [toISOString_data ta hy0A hy9A, toISOString_data tb hy0B hy9B]
  have hmsA : 0 ≤ ta % 86400000 ∧ ta % 86400000 ≤ 86399999 := by omega
  have hmsB : 0 ≤ tb % 86400000 ∧ tb % 86400000 ≤ 86399999 := by omega
  have hsplit : ta / 86400000 < tb / 86400000 ∨
      (ta / 86400000 = tb / 86400000 ∧ ta % 86400000 < tb % 86400000) := by
    omega
  rcases hsplit with hday | ⟨hdayeq, hms⟩
  · rcases civilFromDays_lt hday with hy | ⟨hyeq, hm | ⟨hmeq, hd⟩⟩
    · exact pad4_lt hy0A hy9A hy0B hy9B hy _ _
    · refine lexLt_append_congr (congrArg pad4L hyeq) (lexLt_cons_congr rfl ?_)
      exact pad2_lt (by omega) (by omega) (by omega) (by omega) hm _ _
    · refine lexLt_append_congr (congrArg pad4L hyeq) (lexLt_cons_congr rfl ?_)
      refine lexLt_append_congr (congrArg pad2L hmeq) (lexLt_cons_congr rfl ?_)
      exact pad2_lt (by omega) (by omega) (by omega) (by omega) hd _ _
  · have hciveq : civilFromDays (ta / 86400000) = civilFromDays (tb / 86400000) := by
      rw [hdayeq]
    have htime : ta % 86400000 / 3600000 < tb % 86400000 / 3600000 ∨
        (ta % 86400000 / 3600000 = tb % 86400000 / 3600000 ∧
          (ta % 86400000 / 60000 % 60 < tb % 86400000 / 60000 % 60 ∨
            (ta % 86400000 / 60000 % 60 = tb % 86400000 / 60000 % 60 ∧
              (ta % 86400000 / 1000 % 60 < tb % 86400000 / 1000 % 60 ∨
                (ta % 86400000 / 1000 % 60 = tb % 86400000 / 1000 % 60 ∧
                  ta % 86400000 % 1000 < tb % 86400000 % 1000))))) := by
      omega
    apply lexLt_append_congr (congrArg pad4L (congrArg Prod.fst hciveq))
    apply lexLt_cons_congr rfl
    apply lexLt_append_congr (congrArg pad2L (congrArg (fun c => c.2.1) hciveq))
    apply lexLt_cons_congr rfl
    apply lexLt_append_congr (congrArg pad2L (congrArg (fun c => c.2.2) hciveq))
    apply lexLt_cons_congr rfl
    rcases htime with hH | ⟨hHeq, hMi | ⟨hMieq, hS | ⟨hSeq, hMs⟩⟩⟩
    · exact pad2_lt (by omega) (by omega) (by omega) (by omega) hH _ _
    · refine lexLt_append_congr (congrArg pad2L hHeq) (lexLt_cons_congr rfl ?_)
      exact pad2_lt (by omega) (by omega) (by omega) (by omega) hMi _ _
    · refine lexLt_append_congr (congrArg pad2L hHeq) (lexLt_cons_congr rfl ?_)
      refine lexLt_append_congr (congrArg pad2L hMieq) (lexLt_cons_congr rfl ?_)
      exact pad2_lt (by omega) (by omega) (by omega) (by omega) hS _ _
    · refine lexLt_append_congr (congrArg pad2L hHeq) (lexLt_cons_congr rfl ?_)
      refine lexLt_append_congr (congrArg pad2L hMieq) (lexLt_cons_congr rfl ?_)
      refine lexLt_append_congr (congrArg pad2L hSeq) (lexLt_cons_congr rfl ?_)
      exact pad3_lt (by omega) (by omega) (by omega) (by omega) hMs _ _

end OCE

namespace OCE

/-- A successful `fetchEvents` value is an insertion sort under the
`localeCompare` comparator. -/
theorem fetchEvents_ok_shape (zones : ZoneOracle) (tzMin : Int)
    (between : RRuleOracle) (fetchUrl : String → Except String String)
    (now : Int) (settings : ObsidianCalendarSettings)
    (evs : List CalendarEvent)
    (h : fetchEvents zones tzMin between fetchUrl now settings =
      Except.ok evs) :
    ∃ l, evs = List.insertionSort startLe l := by
  unfold fetchEvents fetchEventsT at h
  cases hempty : (enabledSources settings).isEmpty with
  | true => simp [hempty] at h
  | false =>
    simp only [hempty, Bool.false_eq_true, if_false] at h
    cases hcol : collectAll zones tzMin between fetchUrl
        (localMidnight tzMin now - settings.daysBefore * 24 * 3600 * 1000)
        (localMidnight tzMin (localMidnight tzMin now +
          settings.daysAhead * 24 * 3600 * 1000) + (86400000 - 1))
        (enabledSources settings) with
    | error e =>
      rw [hcol] at h
      simp at h
    | ok results =>
      rw [hcol] at h
      dsimp only at h
      simp only [Except.ok.injEq] at h
      exact ⟨_, h.symm⟩

/-- C4 (corrected): a successful `fetchEvents` result is sorted
non-decreasing in the code-point order of the start strings (the order
the `localeCompare` comparator realizes); consequently, any two events
in result order whose start strings denote instants with 4-digit years
(years 0-9999, the case for all valid ICS input) are in non-decreasing
start-instant order. -/
theorem C4_amended_sorted_by_start_string (zones : ZoneOracle) (tzMin : Int)
    (between : RRuleOracle) (fetchUrl : String → Except String String)
    (now : Int) (settings : ObsidianCalendarSettings)
    (evs : List CalendarEvent)
    (h : fetchEvents zones tzMin between fetchUrl now settings =
      Except.ok evs) :
    evs.Sorted startLe ∧
    evs.Pairwise (fun a b => ∀ ta tb, inRangeISO ta → inRangeISO tb →
      a.start = toISOString ta → b.start = toISOString tb → ta ≤ tb) := by
  obtain ⟨l, rfl⟩ := fetchEvents_ok_shape zones tzMin between fetchUrl now
    settings evs h
  have hsorted : (List.insertionSort startLe l).Sorted startLe :=
    List.sorted_insertionSort startLe l
  refine ⟨hsorted, ?_⟩
  refine hsorted.imp ?_
  intro a b hab ta tb hra hrb hsa hsb
  by_contra hlt
  push_neg at hlt
  have hstr := toISOString_lt hrb hra hlt
  rw [← hsa, ← hsb] at hstr
  unfold startLe at hab
  rw [hab] at hstr
  exact Bool.false_ne_true hstr

/-- Witness for C4's amended statement: the healthy three-event fetch
is sorted under the comparator order. -/
theorem C4_witness :
    ((parseICS zonesNone 0 noRules feedC1 1736467200000 1737158399999).map
        (withMeta srcGood)).Sorted startLe :=
  (C4_amended_sorted_by_start_string zonesNone 0 noRules fetchC1 1736510400000
      { calendars := [srcGood], daysBefore := 0, daysAhead := 7 } _
      (by decide)).1

/-- A feed whose first event exploits ICS month overflow: the floating
compact value `DTSTART:99991301T120000` matches the wall-time pattern
and becomes January of year 10000 after `new Date(y, mo-1, …)`
normalization; its in-window `DTEND` keeps it visible.  All values are
floating compact wall times taking the digit-based floating branch
(wall clock read as UTC at process offset 0). -/
def feedC4 : String :=
  "BEGIN:VEVENT\nUID:x\nSUMMARY:Far\nDTSTART:99991301T120000\n" ++
  "DTEND:20260101T120000\nEND:VEVENT\n" ++
  "BEGIN:VEVENT\nUID:y\nSUMMARY:Near\nDTSTART:20260102T120000\n" ++
  "DTEND:20260102T130000\nEND:VEVENT\n"

def srcC4 : CalendarSource :=
  { id := "c4", name := "C4", url := "https://c4", enabled := true }

/-- Counterexample to C4 as stated: the year-10000 event's start
serializes in the expanded `+010000-…` form, which the string
comparator orders before every 4-digit year, so `fetchEvents` returns
the two events with strictly decreasing start instants. -/
theorem C4_counterexample :
    fetchEvents zonesNone 0 noRules (fun _ => Except.ok feedC4) 1767052800000
        { calendars := [srcC4], daysBefore := 0, daysAhead := 7 } =
      Except.ok [
        { id := "x+010000-01-01T12:00:00.000Z", subject := "Far",
          start := "+010000-01-01T12:00:00.000Z",
          endS := "2026-01-01T12:00:00.000Z",
          location := "", isRecurring := false, calendarId := some "c4",
          calendarName := some "C4", color := some "#4A90E2" },
        { id := "y2026-01-02T12:00:00.000Z", subject := "Near",
          start := "2026-01-02T12:00:00.000Z",
          endS := "2026-01-02T13:00:00.000Z",
          location := "", isRecurring := false, calendarId := some "c4",
          calendarName := some "C4", color := some "#4A90E2" }] ∧
    parseJSDate 0 "+010000-01-01T12:00:00.000Z" = some 253402344000000 ∧
    parseJSDate 0 "2026-01-02T12:00:00.000Z" = some 1767355200000 ∧
    (1767355200000 : Int) < 253402344000000 :=
  ⟨by decide, by decide, by decide, by decide⟩

end OCE
